import Mathlib

/-!
# Verification of the tbp (Tiny BASIC in Python) core

A shallow embedding of the tbp interpreter core (scanner/parser excluded;
the embedding starts from the parsed AST) together with theorems settling
the specification claims.  Each definition is translated from the named
Python source function.  Machine integers are modelled as `Int` (Python
integers are unbounded); the 16-bit truncation function `short_int` is
translated verbatim from `helpers.py`.
-/

namespace Tbp

/-- Translation of `helpers.short_int` (src/tbp/helpers.py, lines 78-90), done
verbatim.  `x & 0xFFFF` on a Python int is `x.emod 65536` (non-negative
remainder); `x >> 15` is an arithmetic shift, i.e. floor division by
`2 ^ 15`.  Note the source tests `x >> 15` on the *original* argument,
not on the stripped value. -/
def short_int (x : Int) : Int :=
  let x_stripped : Int := x % 65536
  if Int.fdiv x 32768 ≠ 0 then x_stripped - 1 - 0xFFFF else x_stripped

/-- Modelled from the spec: "`x` reduced modulo 65536 and reinterpreted
as signed 16-bit (a value in [-32768, 32767])".  This is the
specification's description of the wraparound, used to compare against
the source's `short_int`. -/
def wrap16 (x : Int) : Int :=
  let r : Int := x % 65536
  if r < 32768 then r else r - 65536

/-- The two Python exception kinds that can escape the interpreter's own
typed-error discipline (raised by library code the interpreter calls:
`bytearray.__setitem__` and `secrets.randbelow` raise `ValueError`,
`SortedKeyList.index` raises one as well, missing-dict access raises
`KeyError`).  These are *not* subclasses of `TbpBaseError`, so the
interpreter's `except TbpBaseError` handlers do not catch them. -/
inductive PyExc where
  | valueError
  | keyError
deriving DecidableEq, Repr

/-- The typed runtime errors (`TbpRuntimeError`) raised by the visit
methods of `interpreter.py` that this development exercises.  Each
constructor carries the data interpolated into the source's message
string, so "an error naming X" is expressible. -/
inductive RtErr where
  /-- Error #224 Division by zero. -/
  | divByZero
  /-- Error: #259 RND(0) not allowed. -/
  | rndZero
  /-- Error #360: USR only supports read (276) or write (280) subroutines. -/
  | usrBadRoutine (given : Int)
  /-- Error #361: USR read/write routines require an address in XReg. -/
  | usrNoAddress
  /-- Error #362: USR write routine requires a value in AReg. -/
  | usrNoValue
  /-- Error #362: USR write routine on supports values in AReg between 0
  and 256, given '…'. -/
  | usrByteRange (given : Int)
  /-- Error #336: Accessing uninitialized variable '…'. -/
  | uninitVar (name : Char)
  /-- Error #046: GOTO subroutine does not exist '…'. -/
  | gotoNoExist (target : Int)
  /-- Error #046: GOSUB subroutine does not exist '…'. -/
  | gosubNoExist (target : Int)
  /-- Error #345: GOSUB return address is invalid. -/
  | gosubRetInvalid
  /-- Error #133: RETURN called with an empty call stack. -/
  | returnEmptyStack
  /-- Error #337: LIST parameters must be in logical order. -/
  | listOrder (low high : Int)
  /-- Error #338: LIST parameters must be in the range 1 to 32767. -/
  | listRange (low high : Int)
deriving DecidableEq, Repr

/-- An error escaping a visit method: either a typed `TbpRuntimeError`
(caught by the interpreter's `except TbpBaseError`) or an untyped Python
exception (which crashes the session). -/
inductive Err where
  | typed (e : RtErr)
  | untyped (e : PyExc)
deriving DecidableEq, Repr

/-! ## Memory (src/tbp/memory.py)

The byte store is a `SortedDict` from 64-byte block index to a
`bytearray(64)`.  We model the dict as an association list from block
index to a 64-entry list of bytes.  Python's `bytearray.__setitem__`
raises an (untyped) `ValueError` unless the assigned value is in
`[0, 255]`; that library behaviour is part of the model because
`Memory.write_memory` performs the assignment unchecked. -/

def BLOCK_SIZE : Int := 64

abbrev Memory := List (Int × List Int)

def Memory.init : Memory := []

def Memory.lookupBlock (m : Memory) (bi : Int) : Option (List Int) :=
  match m with
  | [] => none
  | (k, b) :: rest => if k = bi then some b else Memory.lookupBlock rest bi

def Memory.setBlock (m : Memory) (bi : Int) (b : List Int) : Memory :=
  match m with
  | [] => [(bi, b)]
  | (k, b0) :: rest =>
      if k = bi then (k, b) :: rest else (k, b0) :: Memory.setBlock rest bi b

/-- Model of `bytearray(self.BLOCK_SIZE)`: 64 zero bytes. -/
def zeroBlock : List Int := List.replicate 64 0

/-- The body of `Memory.write_memory` / `Memory.read_memory` lazily
allocates the block if absent. -/
def Memory.ensureBlock (m : Memory) (bi : Int) : Memory :=
  match m.lookupBlock bi with
  | some _ => m
  | none => m.setBlock bi zeroBlock

/-- Translation of `Memory.write_memory` (memory.py, lines 32-39).  The block index is
`address // BLOCK_SIZE` (Python floor division) and the offset is
`address - block_index * BLOCK_SIZE`.  The final `bytearray` assignment
is where Python raises `ValueError` for a value outside `[0, 255]`;
the tbp code performs it without further checks and returns `value`. -/
def Memory.write_memory (m : Memory) (address : Int) (value : Int) :
    Memory × Except PyExc Int :=
  let bi := Int.fdiv address BLOCK_SIZE
  let m1 := m.ensureBlock bi
  if 0 ≤ value ∧ value ≤ 255 then
    match m1.lookupBlock bi with
    | some b =>
        (m1.setBlock bi (b.set (address - bi * BLOCK_SIZE).toNat value), .ok value)
    | none => (m1, .ok value)
  else
    (m1, .error .valueError)

/-- Translation of `Memory.read_memory` (memory.py, lines 41-46).  Reading also lazily
allocates the (zeroed) block. -/
def Memory.read_memory (m : Memory) (address : Int) : Memory × Int :=
  let bi := Int.fdiv address BLOCK_SIZE
  let m1 := m.ensureBlock bi
  match m1.lookupBlock bi with
  | some b => (m1, b.getD (address - bi * BLOCK_SIZE).toNat 0)
  | none => (m1, 0)

/-! ## The parsed AST (src/tbp/languageitems.py)

The parser is outside this development; the embedding starts from parsed
nodes.  A `Literal` node applies `short_int` to its value at construction
(languageitems.py line 177), which the evaluator folds into the
evaluation of `.lit`.  The mutable per-node `value` slot through which
the tree-walker communicates results always passes through the
`LanguageItem.value` setter (line 190), i.e. through `short_int`; the
evaluator applies `short_int` at exactly those write sites.  The `Gosub`
node records its own source line number (`gosub.line`), which
`visit_gosub_statement` uses to compute the return address; other nodes'
line/column fields only feed error-message positions and are dropped.
`INPUT`'s interactive prompt path performs blocking console reads; the
embedding models a session whose input stream is closed (the `RUN`
parameter queue is still drained faithfully).  The `RUN` statement
re-enters the execution loop and is modelled only as the top-level entry
point `runProgram`, not as a storable statement; no claim exercises a
stored `RUN`. -/

inductive UnOp where
  | plus
  | minus
deriving DecidableEq, Repr

inductive BinOp where
  | add
  | sub
  | mul
  | div
deriving DecidableEq, Repr

inductive RelOp where
  | eq
  | ne
  | lt
  | le
  | gt
  | ge
deriving DecidableEq, Repr

inductive Expr where
  | lit (v : Int)
  | var (name : Char)
  | unary (op : UnOp) (e : Expr)
  | binary (op : BinOp) (lhs rhs : Expr)
  | group (e : Expr)
  | rnd (e : Expr)
  | usr (subroutine : Expr) (xReg aReg : Option Expr)

/-- An element of a PRINT statement's expression list: a separator
(`,` or `;`), a string literal, or an expression. -/
inductive PrintItem where
  | sep (c : Char)
  | str (s : String)
  | expr (e : Expr)

inductive Stmt where
  | print (items : List PrintItem)
  | rem
  | letS (v : Char) (e : Expr)
  | goto (target : Expr)
  | gosub (line : Int) (target : Expr)
  | ret
  | endS
  | list (startLine endLine : Option Expr)
  | ifS (lhs : Expr) (op : RelOp) (rhs : Expr) (branch : Stmt)
  | clear
  | inputS (vars : List Char)

/-- A stored program line (`ProgramLine` in languageitems.py): the
original source text and the parsed statement (`data[1]`; `data[0]` is
the `LineNumber` node, whose number is the key the line is stored
under). -/
structure ProgLine where
  source : String
  stmt : Stmt

/-- The program storage: `SortedDict[int, ProgramLine]`, modelled as an
association list that the interpreter keeps sorted by key (strictly
ascending); theorems that depend on the order carry the sortedness
invariant as a hypothesis. -/
abbrev Lines := List (Int × ProgLine)

def keysOf (ls : Lines) : List Int := ls.map (fun p => p.1)

def containsKey (ls : Lines) (k : Int) : Bool := ls.any (fun p => p.1 = k)

def lookupLine (ls : Lines) (k : Int) : Option ProgLine :=
  match ls with
  | [] => none
  | (k0, pl) :: rest => if k0 = k then some pl else lookupLine rest k

/-- Translation of `Interpreter._get_next_line` (interpreter.py 456-461):
`index = self._lines.keys().index(line)` raises an (untyped)
`ValueError` when `line` is not stored; otherwise the result is 0 for
the last line and the next key otherwise. -/
def getNextLineE (ls : Lines) (line : Int) : Except PyExc Int :=
  match (keysOf ls).findIdx? (fun k => k = line) with
  | none => .error .valueError
  | some i =>
      if i = (keysOf ls).length - 1 then .ok 0
      else .ok ((keysOf ls).getD (i + 1) 0)

/-! ## Interpreter state (fields of `Interpreter.__init__`) -/

inductive TState where
  | lineState
  | fileState
  | runningState
  | breakState
  | errorFileState
deriving DecidableEq, Repr

/-- Mutable fields of the `Interpreter` object that the embedded
operations touch.  `symbols` models the `SymbolTable` (a dict from
upper-case name to `SymbolInfo`; a variable is present iff its
`initialized` flag is true, since every write sets the flag).
`runParams` is kept in the code's reversed order (`pop()` takes the
last element).  `output` collects every `print_output` call. -/
structure InterpState where
  symbols : List (Char × Int)
  lines : Lines
  breakpoints : List Int
  bpEnabled : Bool
  tstate : TState
  ip : Int
  branchIp : Int
  callstack : List Int
  runParams : List Expr
  mem : Memory
  oneShots : List Int
  output : List String

/-- Dict update for the symbol-table model (`SymbolTable.__setitem__`
stores the value as given; the 16-bit truncation happened at the node
value slot the value was read from). -/
def setSym (tbl : List (Char × Int)) (k : Char) (v : Int) : List (Char × Int) :=
  match tbl with
  | [] => [(k, v)]
  | (k0, v0) :: rest =>
      if k0 = k then (k, v) :: rest else (k0, v0) :: setSym rest k v

def getSym (tbl : List (Char × Int)) (k : Char) : Option Int :=
  match tbl with
  | [] => none
  | (k0, v0) :: rest => if k0 = k then some v0 else getSym rest k

/-- State of a fresh `Interpreter()`: variable `S` seeded to 256
(interpreter.py line 112), everything else empty/zero. -/
def initState : InterpState :=
  { symbols := [('S', 256)]
    lines := []
    breakpoints := []
    bpEnabled := true
    tstate := .lineState
    ip := 0
    branchIp := 0
    callstack := []
    runParams := []
    mem := Memory.init
    oneShots := []
    output := [] }

/-- Translation of `Interpreter.initialize_runtime_state`
(interpreter.py 277-285): resets exactly the runtime fields; the stored
program, symbol table and breakpoint set are not touched. -/
def initialize_runtime_state (s : InterpState) : InterpState :=
  { s with
    tstate := .lineState
    ip := 0
    branchIp := 0
    callstack := []
    runParams := []
    mem := Memory.init
    oneShots := [] }

/-- Translation of `Interpreter.clear_program` (interpreter.py 287-291). -/
def clear_program (s : InterpState) : InterpState :=
  { s with lines := [], breakpoints := [], oneShots := [] }

/-- Model of `helpers.print_output`: append to the output transcript. -/
def printOut (s : InterpState) (msg : String) : InterpState :=
  { s with output := s.output ++ [msg] }

/-! ## Expression evaluation (the expression visit methods) -/

/-- Result of evaluating/executing one construct: the updated state
(with a value, for expressions), or a raised error paired with the
state at the moment of the raise (Python mutates `self` in place, so
mutations made before a raise persist). -/
abbrev EvalRes (α : Type) := Except (Err × InterpState) α

/-- Model of `secrets.randbelow` (CPython Lib/secrets.py): it raises
`ValueError` unless the exclusive upper bound is positive, and
otherwise returns a value chosen by the environment, abstracted here as
`rf bound`.  Theorems about the result's range carry `randbelow`'s
contract `∀ n > 0, 0 ≤ rf n < n` as a hypothesis. -/
def randbelow (rf : Int → Int) (n : Int) : Except PyExc Int :=
  if n ≤ 0 then .error .valueError else .ok (rf n)

/-- The expression tree-walk: `visit_literal_expression`,
`visit_variable_expression` (693-708), `visit_unary_expression`
(710-716), `visit_binary_expression` (718-755), `visit_group_expression`
(757-761), `visit_random_expression` (763-780) and
`visit_usr_expression` (794-875) of interpreter.py.  Every result is
communicated through a node's `value` slot, whose setter applies
`short_int`; the evaluator applies `short_int` at exactly those write
sites.  A `.lit v` evaluates to `short_int v` because the `Literal`
constructor already truncates (languageitems.py 175-177). -/
def evalExpr (rf : Int → Int) : InterpState → Expr → EvalRes (InterpState × Int)
  | s, .lit v => .ok (s, short_int v)
  | s, .var n =>
      match getSym s.symbols n.toUpper with
      | none => .error (.typed (.uninitVar n.toUpper), s)
      | some v => .ok (s, short_int v)
  | s, .unary op e => do
      let (s1, v) ← evalExpr rf s e
      let value := if op = .minus then -v else |v|
      return (s1, short_int value)
  | s, .binary op l r => do
      let (s1, lv) ← evalExpr rf s l
      let (s2, rv) ← evalExpr rf s1 r
      match op with
      | .add => return (s2, short_int (lv + rv))
      | .sub => return (s2, short_int (lv - rv))
      | .mul => return (s2, short_int (lv * rv))
      | .div =>
          if rv = 0 then throw (.typed .divByZero, s2)
          else return (s2, short_int (Int.fdiv lv rv))
  | s, .group e => do
      let (s1, v) ← evalExpr rf s e
      return (s1, short_int v)
  | s, .rnd e => do
      let (s1, v) ← evalExpr rf s e
      if v = 0 then throw (.typed .rndZero, s1)
      else
        match randbelow rf v with
        | .error p => throw (.untyped p, s1)
        | .ok iv => return (s1, short_int iv)
  | s, .usr subroutine xReg aReg => do
      let (s1, rv) ← evalExpr rf s subroutine
      if rv ≠ 276 ∧ rv ≠ 280 then throw (.typed (.usrBadRoutine rv), s1)
      else
        match xReg with
        | none => throw (.typed .usrNoAddress, s1)
        | some xe => do
            let (s2, av) ← evalExpr rf s1 xe
            let memAddress := if av < 0 then 65536 + av else av
            if rv = 280 then
              match aReg with
              | none => throw (.typed .usrNoValue, s2)
              | some ae => do
                  let (s3, bv) ← evalExpr rf s2 ae
                  if bv < 0 ∨ bv > 256 then
                    throw (.typed (.usrByteRange bv), s3)
                  else
                    match Memory.write_memory s3.mem memAddress bv with
                    | (m1, .ok val) => return ({ s3 with mem := m1 }, short_int val)
                    | (m1, .error p) => throw (.untyped p, { s3 with mem := m1 })
            else
              let (m1, val) := Memory.read_memory s2.mem memAddress
              return ({ s2 with mem := m1 }, short_int val)

/-! ## Statement execution (the statement visit methods) -/

/-- Evaluation of a relational operator in `visit_if_statement`
(interpreter.py 999-1011). -/
def relEval (op : RelOp) (lhs rhs : Int) : Bool :=
  match op with
  | .eq => decide (lhs = rhs)
  | .ne => decide (lhs ≠ rhs)
  | .lt => decide (lhs < rhs)
  | .le => decide (lhs ≤ rhs)
  | .gt => decide (lhs > rhs)
  | .ge => decide (lhs ≥ rhs)

/-- Body of the PRINT loop of `visit_print_statement` (interpreter.py
630-640): a `,` separator pads with spaces to the next multiple-of-8
column, a `;` adds nothing, and any other item appends `str(value)`. -/
def printItemStep (rf : Int → Int) (s : InterpState) (builder : String)
    (it : PrintItem) : EvalRes (InterpState × String) :=
  match it with
  | .sep c =>
      if c = ',' then
        .ok (s, builder ++ String.mk (List.replicate (8 - builder.length % 8) ' '))
      else .ok (s, builder)
  | .str txt => .ok (s, builder ++ txt)
  | .expr e => do
      let (s1, v) ← evalExpr rf s e
      return (s1, builder ++ toString v)

def printItemsLoop (rf : Int → Int) :
    InterpState → String → List PrintItem → EvalRes (InterpState × String)
  | s, builder, [] => .ok (s, builder)
  | s, builder, it :: rest => do
      let (s1, b1) ← printItemStep rf s builder it
      printItemsLoop rf s1 b1 rest

/-- True when a `PrintItem` is a separator (`isinstance(last_item,
PrintSeparator)`). -/
def PrintItem.isSep : PrintItem → Bool
  | .sep _ => true
  | _ => false

/-- Translation of `visit_input_statement` (interpreter.py 1100-1159)
for a session whose interactive input stream is closed: the reversed
`RUN`-parameter queue is drained (`pop()` takes the last element); each
parameter is evaluated and assigned through a synthesized
`LET var=str(value)` — for the integer values at hand that round-trips
to a plain symbol-table assignment; a typed error while evaluating a
parameter is caught here: it is reported and the runtime state is
reset.  When parameters run out with variables still unfilled,
`read_input` signals end-of-input and the code resets the runtime state
and reports Error #350. -/
def execInput (rf : Int → Int) : InterpState → List Char → EvalRes InterpState
  | s, [] => .ok s
  | s, v :: rest =>
      match s.runParams.getLast? with
      | none =>
          .ok (printOut (initialize_runtime_state s)
            "Error #350: Aborting RUN from INPUT entry.\n")
      | some param =>
          let s0 := { s with runParams := s.runParams.dropLast }
          match evalExpr rf s0 param with
          | .error (.typed _, sE) =>
              .ok (printOut (initialize_runtime_state sE) "input parameter error\n")
          | .error (.untyped p, sE) => .error (.untyped p, sE)
          | .ok (s1, value) =>
              execInput rf { s1 with symbols := setSym s1.symbols v.toUpper value } rest

/-- Helper `__validate_line_numbers` of `visit_list_statement`
(interpreter.py 936-939). -/
def validate_line_numbers (low high : Int) : Bool :=
  ¬(low < 1 ∨ low > 32767) ∧ ¬(high < 1 ∨ high > 32767)

/-- Resolution of one optional LIST bound (`visit_list_statement`,
interpreter.py 944-953): an omitted bound keeps its default, a present
bound is evaluated. -/
def resolveListBound (rf : Int → Int) (s : InterpState) (bound : Option Expr)
    (dflt : Int) : EvalRes (InterpState × Int) :=
  match bound with
  | none => pure (s, dflt)
  | some e => evalExpr rf s e

/-- The statement tree-walk: `visit_print_statement` (617-651),
`visit_rem_statement` (672), `visit_let_statement` /
`visit_assignment_expression` (676-691), `visit_goto_statement`
(877-887), `visit_gosub_statement` (889-909), `visit_return_statement`
(911-921), `visit_end_statement` (923-929), `visit_list_statement`
(941-986), `visit_if_statement` (988-1018), `visit_clear_statement`
(1020-1026) and `visit_input_statement` of interpreter.py. -/
def execStmt (rf : Int → Int) : InterpState → Stmt → EvalRes InterpState
  | s, .print items =>
      if items.length = 0 then .ok (printOut s "\n")
      else do
        let (s1, builder) ← printItemsLoop rf s "" items
        let builder :=
          if (items.getD (items.length - 1) (.sep ';')).isSep then builder
          else builder ++ "\n"
        return printOut s1 builder
  | s, .rem => .ok s
  | s, .letS v e => do
      let (s1, value) ← evalExpr rf s e
      return { s1 with symbols := setSym s1.symbols v.toUpper value }
  | s, .goto target => do
      let (s1, line) ← evalExpr rf s target
      if ¬containsKey s1.lines line then
        throw (.typed (.gotoNoExist line), s1)
      else
        return { s1 with branchIp := line }
  | s, .gosub selfLine target => do
      let (s1, line) ← evalExpr rf s target
      if ¬containsKey s1.lines line then
        throw (.typed (.gosubNoExist line), s1)
      else
        match getNextLineE s1.lines selfLine with
        | .error p => throw (.untyped p, s1)
        | .ok ipReturn =>
            if ipReturn = 0 then throw (.typed .gosubRetInvalid, s1)
            else
              return { s1 with
                callstack := s1.callstack ++ [ipReturn], branchIp := line }
  | s, .ret =>
      match s.callstack.getLast? with
      | none => .error (.typed .returnEmptyStack, s)
      | some top =>
          .ok { s with callstack := s.callstack.dropLast, branchIp := top }
  | s, .endS =>
      if s.tstate = .runningState then .ok (initialize_runtime_state s) else .ok s
  | s, .list startLine endLine => do
      let (s1, lowLine) ← resolveListBound rf s startLine 1
      let (s2, highLine) ← resolveListBound rf s1 endLine 32767
      if lowLine ≥ highLine then
        throw (.typed (.listOrder lowLine highLine), s2)
      else if validate_line_numbers lowLine highLine = false then
        throw (.typed (.listRange lowLine highLine), s2)
      else if lowLine ≠ 1 ∧ highLine = 32767 ∧ containsKey s2.lines lowLine then
        -- the `none` arm is unreachable: the guard just checked membership
        match lookupLine s2.lines lowLine with
        | some pl => return printOut s2 (pl.source ++ "\n")
        | none => return s2
      else
        return s2.lines.foldl
          (fun acc p =>
            if lowLine ≤ p.1 ∧ p.1 ≤ highLine then printOut acc (p.2.source ++ "\n")
            else acc) s2
  | s, .ifS lhs op rhs branch => do
      let (s1, lv) ← evalExpr rf s lhs
      let (s2, rv) ← evalExpr rf s1 rhs
      if relEval op lv rv then execStmt rf s2 branch
      else return s2
  | s, .clear => .ok (clear_program (initialize_runtime_state s))
  | s, .inputS vars => execInput rf s vars

/-! ## The execution loop and debugger (interpreter.py 446-603) -/

/-- Translation of `Interpreter._hit_breakpoint` (interpreter.py
513-531).  Checked only while running; a regular breakpoint hit prints
a `Breakpoint:` banner and does not clear the one-shot list, a one-shot
hit clears the whole list; in either case the stopped-at line's source
is displayed (`self._lines[self._ip].source` — a `KeyError` if the line
were not stored, which the loop's invariant prevents). -/
def hitBreakpoint (s : InterpState) : EvalRes (Bool × InterpState) :=
  if s.bpEnabled = false then .ok (false, s)
  else
    let s1 :=
      if s.breakpoints.contains s.ip then
        { printOut s ("Breakpoint: " ++ toString s.ip ++ "\n") with
            tstate := .breakState }
      else if s.oneShots.contains s.ip then
        { s with oneShots := [], tstate := .breakState }
      else s
    if s1.tstate = .breakState then
      match lookupLine s1.lines s1.ip with
      | some pl => .ok (true, printOut s1 ("[" ++ pl.source ++ "]\n"))
      | none => .error (.untyped .keyError, s1)
    else .ok (false, s1)

/-- Translation of `Interpreter._run_line` (interpreter.py 446-454),
without the optional wall-clock timing output.  Executes
`self._lines[line].data[1]`; a missing line is a `KeyError`. -/
def runLine (rf : Int → Int) (s : InterpState) : EvalRes InterpState :=
  match lookupLine s.lines s.ip with
  | none => .error (.untyped .keyError, s)
  | some pl => execStmt rf s pl.stmt

/-- The `while self._the_state == RUNNING_STATE` loop of
`Interpreter._run_program` (interpreter.py 485-506), fuel-indexed.  The
fuel-exhaustion branch returns the state as-is; every theorem supplies
enough fuel for the run in question to finish before it is reached.
One iteration: breakpoint check (a hit leaves the loop via the state
change); otherwise re-enable breakpoints, execute the current line,
then — if still running — move the instruction pointer to the pending
branch or to the next stored line, and a zero instruction pointer
breaks out of the loop. -/
def runLoop (rf : Int → Int) : Nat → InterpState → EvalRes InterpState
  | 0, s => .ok s
  | fuel + 1, s =>
      if s.tstate ≠ .runningState then .ok s
      else do
        let (hit, s1) ← hitBreakpoint s
        if hit then runLoop rf fuel s1
        else do
          let s2 := { s1 with bpEnabled := true }
          let s3 ← runLine rf s2
          let s4 ←
            if s3.tstate = .runningState then
              if s3.branchIp ≠ 0 then
                pure { s3 with ip := s3.branchIp, branchIp := 0 }
              else
                match getNextLineE s3.lines s3.ip with
                | .error p => throw (.untyped p, s3)
                | .ok nl => pure { s3 with ip := nl }
            else pure s3
          if s4.ip = 0 then pure s4
          else runLoop rf fuel s4

/-- Translation of `Interpreter._run_program` (interpreter.py 463-511).
With `startLine = 0` execution starts at the first stored line
(`self._lines.keys()[0]`, an `IndexError` on an empty program, which
the `RUN` handler guards); otherwise it resumes at `startLine` with
breakpoints suppressed for that first line.  If the loop drains with
the state still `RUNNING`, the runtime state is reset and the
missing-END error is printed. -/
def runProgram (rf : Int → Int) (fuel : Nat) (startLine : Int)
    (s : InterpState) : EvalRes InterpState := do
  let s0 := { s with bpEnabled := true }
  let s1 ←
    if startLine = 0 then
      match s0.lines with
      | [] => throw (.untyped .keyError, s0)
      | (k, _) :: _ => pure { s0 with ip := k }
    else pure { s0 with ip := startLine, bpEnabled := false }
  let s2 := { s1 with branchIp := 0, tstate := .runningState }
  let s3 ← runLoop rf fuel s2
  if s3.tstate = .runningState then
    return printOut (initialize_runtime_state s3) "Error #335: No END in the program.\n"
  else
    return s3

/-- The nested helper `do_branch` of `Interpreter._set_one_shots`
(interpreter.py 566-571): evaluate the branch target; a target that is
not a stored line prints a CLE #10 notice and adds nothing, otherwise
the target becomes a one-shot breakpoint. -/
def doBranchOneShot (rf : Int → Int) (s : InterpState) (target : Expr) :
    EvalRes InterpState := do
  let (s1, line) ← evalExpr rf s target
  if ¬containsKey s1.lines line then
    return printOut s1 ("CLE #10: Branch target does not exist '" ++ toString line ++ "'.\n")
  else
    return { s1 with oneShots := s1.oneShots ++ [line] }

/-- The nested helper `do_if` of `Interpreter._set_one_shots`
(interpreter.py 573-580): look at an IF statement's branch clause; a
GOTO/GOSUB contributes its target, a nested IF recurses, anything else
contributes nothing. -/
def doIfOneShot (rf : Int → Int) : InterpState → Stmt → EvalRes InterpState
  | s, .ifS _ _ _ branch =>
      match branch with
      | .goto t => doBranchOneShot rf s t
      | .gosub _ t => doBranchOneShot rf s t
      | .ifS _ _ _ _ => doIfOneShot rf s branch
      | _ => .ok s
  | s, _ => .ok s

/-- Translation of `Interpreter._set_one_shots` (interpreter.py
533-603).  For a RETURN the single one-shot is the top of the call
stack and the method returns early (the normal-successor one-shot is
*not* added); for GOTO/GOSUB and (nested) IF statements the resolved
branch target is added; finally the line's normal successor is added
when one exists. -/
def set_one_shots (rf : Int → Int) (s : InterpState) : EvalRes InterpState :=
  match lookupLine s.lines s.ip with
  | none => .error (.untyped .keyError, s)
  | some pl =>
      match pl.stmt with
      | .ret =>
          match s.callstack.getLast? with
          | none => .ok (printOut s "CLE #11: RETURN call stack is empty.")
          | some top => .ok { s with oneShots := s.oneShots ++ [top] }
      | stmt => do
          let s1 ←
            match stmt with
            | .goto t => doBranchOneShot rf s t
            | .gosub _ t => doBranchOneShot rf s t
            | .ifS _ _ _ _ => doIfOneShot rf s stmt
            | _ => pure s
          match getNextLineE s1.lines s1.ip with
          | .error p => throw (.untyped p, s1)
          | .ok nextLine =>
              if nextLine ≠ 0 then
                return { s1 with oneShots := s1.oneShots ++ [nextLine] }
              else
                return s1

inductive BreakContinueType where
  | run
  | step
deriving DecidableEq, Repr

/-- Rendering of `_report_error` (interpreter.py 423-438): the embedded
transcript records that an error report was printed; the exact text
(message, caret line) is abstracted. -/
def reportError (e : RtErr) (s : InterpState) : InterpState :=
  printOut s ("Runtime Error: " ++ toString (repr e) ++ "\n")

/-- Translation of `Interpreter.break_continue` (interpreter.py
348-364): for STEP, compute the one-shot breakpoints, then resume the
run loop at the current instruction pointer.  A typed error is caught
and reported *without* resetting the runtime state (by design, so the
user can inspect); an untyped exception escapes. -/
def break_continue (rf : Int → Int) (fuel : Nat)
    (kind : BreakContinueType) (s : InterpState) :
    Except (PyExc × InterpState) InterpState :=
  match (do
      let s1 ← if kind = .step then set_one_shots rf s else pure s
      runProgram rf fuel s1.ip s1 : EvalRes InterpState) with
  | .ok s2 => .ok s2
  | .error (.typed e, sE) => .ok (reportError e sE)
  | .error (.untyped p, sE) => .error (p, sE)

/-- The error-handling skeleton of `Interpreter.interpret_line`
(interpreter.py 150-208).  Scanning, parsing and the per-line dispatch
are abstracted as the `body` argument: the outcome the `try` block
would have on the current state — `.ok` with the resulting state, or
`.error` with the raised `TbpBaseError` and the state at the point of
the raise (mutations made before the raise persist, Python mutating
`self` in place).  The handler: when not stopped at a breakpoint, the
runtime state is reset to known-good values; the error is reported; the
method returns `False`.  Untyped exceptions are not caught by `except
TbpBaseError` and crash the session, so they do not appear here. -/
def interpret_line_outcome (body : Except (RtErr × InterpState) InterpState) :
    Bool × InterpState :=
  match body with
  | .ok s => (true, s)
  | .error (e, sE) =>
      let s1 := if sE.tstate ≠ .breakState then initialize_runtime_state sE else sE
      (false, reportError e s1)

/-! ## The linter (src/tbp/linter.py)

Diagnostics are modelled structurally (the claims quantify over "a
potentially-uninitialized diagnostic for a variable", which needs the
variable name, not the message text).  The `SortedList`/`SortedDict`
containers only affect the *display order* of the final report (sorted
by line, potential errors iterated by name); membership of a diagnostic
in the report is order-independent, and the claims are about
membership, so the model keeps plain insertion-ordered lists. -/

inductive LintErr where
  /-- LINT #01: Missing END statement in the program (reported with the
  synthetic line number 32767). -/
  | missingEnd
  /-- LINT #02: CLEAR must never be in a program. -/
  | clearInProgram (line : Int)
  /-- LINT #03: GOTO/GOSUB target not in program. -/
  | branchTarget (cmd : String) (target : Int) (line : Int)
  /-- LINT #04: Potentially uninitialized variable. -/
  | uninitVar (name : Char) (line : Int)
deriving DecidableEq, Repr

/-- Accumulator fields of the `Linter` object: `_initialized_vars`,
`_had_end_statement`, `_errorlist` and `_potential_errors`. -/
structure LintState where
  initialized : List Char
  hadEnd : Bool
  errors : List LintErr
  potential : List (Char × List LintErr)

/-- Recording of a potentially-uninitialized use
(`visit_variable_expression`, linter.py 239-242): start or extend the
per-name list in `_potential_errors`. -/
def addPotential (pot : List (Char × List LintErr)) (name : Char)
    (item : LintErr) : List (Char × List LintErr) :=
  match pot with
  | [] => [(name, [item])]
  | (n, items) :: rest =>
      if n = name then (n, items ++ [item]) :: rest
      else (n, items) :: addPotential rest name item

/-- The linter's expression walk (`visit_*` expression methods of
linter.py): a variable not yet known-initialized records a potential
diagnostic; `visit_usr_expression` (266-272) visits `a_reg` then
`x_reg` and does not visit the subroutine expression. -/
def lintExpr (lineNo : Int) : LintState → Expr → LintState
  | st, .lit _ => st
  | st, .var n =>
      let name := n.toUpper
      if st.initialized.contains name then st
      else { st with potential := addPotential st.potential name (.uninitVar name lineNo) }
  | st, .unary _ e => lintExpr lineNo st e
  | st, .binary _ lhs rhs => lintExpr lineNo (lintExpr lineNo st lhs) rhs
  | st, .group e => lintExpr lineNo st e
  | st, .rnd e => lintExpr lineNo st e
  | st, .usr _ xReg aReg =>
      let st1 := match aReg with
                 | some e => lintExpr lineNo st e
                 | none => st
      match xReg with
      | some e => lintExpr lineNo st1 e
      | none => st1

/-- The accept-result inspected by `Linter._check_goto_gosub` (linter.py
274-285): `visit_literal_expression` returns the `Literal` node itself
and `visit_group_expression` returns its inner accept-result, so the
result is a `Literal` exactly for a (possibly parenthesised) literal
target; its `value` carries the construction-time `short_int`. -/
def lintBranchLiteral : Expr → Option Int
  | .lit v => some (short_int v)
  | .group e => lintBranchLiteral e
  | _ => none

/-- Translation of `Linter._check_goto_gosub`: walk the target (for
uninitialized-variable flags), then flag a hard-coded target that is
not a stored line. -/
def checkGotoGosub (lines : Lines) (lineNo : Int) (cmd : String)
    (st : LintState) (target : Expr) : LintState :=
  let st1 := lintExpr lineNo st target
  match lintBranchLiteral target with
  | some v =>
      if ¬containsKey lines v then
        { st1 with errors := st1.errors ++ [.branchTarget cmd v lineNo] }
      else st1
  | none => st1

/-- The linter's statement walk (statement `visit_*` methods of
linter.py).  `visit_let_statement`/`visit_assignment_expression`
(207-222) walk the right-hand side *before* marking the target
initialized; `visit_input_statement` (329-335) marks every requested
variable initialized; `visit_if_statement` (313-317) walks only the two
relation operands — the branch statement is *not* visited. -/
def lintStmt (lines : Lines) (lineNo : Int) : LintState → Stmt → LintState
  | st, .print items =>
      items.foldl
        (fun acc it =>
          match it with
          | .expr e => lintExpr lineNo acc e
          | _ => acc) st
  | st, .rem => st
  | st, .letS v e =>
      let st1 := lintExpr lineNo st e
      { st1 with initialized := st1.initialized ++ [v.toUpper] }
  | st, .goto target => checkGotoGosub lines lineNo "GOTO" st target
  | st, .gosub _ target => checkGotoGosub lines lineNo "GOSUB" st target
  | st, .ret => st
  | st, .endS => { st with hadEnd := true }
  | st, .list _ _ => st
  | st, .ifS lhs _ rhs _ => lintExpr lineNo (lintExpr lineNo st lhs) rhs
  | st, .clear => { st with errors := st.errors ++ [.clearInProgram lineNo] }
  | st, .inputS vars =>
      { st with initialized := st.initialized ++ vars.map Char.toUpper }

/-- The forward pass of `Linter.lint_program` over the stored lines in
line order (linter.py 143-145). -/
def lintPass (lines : Lines) : LintState :=
  lines.foldl (fun acc p => lintStmt lines p.1 acc p.2.stmt) ⟨[], false, [], []⟩

/-- Translation of `Linter.lint_program` (linter.py 134-170): one
forward pass over the stored lines in line order; a missing END is
appended; in non-strict mode every variable in the final
known-initialized set has its whole potential-diagnostic list dropped
(`self._potential_errors.pop(var, None)` for each); the surviving
potential diagnostics join the error list, which is then reported. -/
def lint_program (lines : Lines) (strict : Bool) : List LintErr :=
  let st1 := lintPass lines
  let st2 :=
    if st1.hadEnd = false then { st1 with errors := st1.errors ++ [.missingEnd] }
    else st1
  let st3 :=
    if strict = false then
      { st2 with potential := st2.potential.filter (fun q => ¬st2.initialized.contains q.1) }
    else st2
  st3.errors ++ st3.potential.foldl (fun acc q => acc ++ q.2) []

/-! ## Invariants and helper lemmas for the memory store -/

/-- Every stored block is a `bytearray(64)`: an invariant of `Memory`
maintained by both operations (blocks are only created as `zeroBlock`
and mutated elementwise). -/
def Memory.wf (m : Memory) : Prop := ∀ p ∈ m, (p.2 : List Int).length = 64

theorem Memory.wf_init : Memory.wf Memory.init := by
  intro p hp
  cases hp

theorem lookupBlock_setBlock_self (m : Memory) (bi : Int) (b : List Int) :
    (m.setBlock bi b).lookupBlock bi = some b := by
  induction m with
  | nil => simp [Memory.setBlock, Memory.lookupBlock]
  | cons p rest ih =>
      obtain ⟨k, b0⟩ := p
      by_cases h : k = bi <;>
        simp [Memory.setBlock, Memory.lookupBlock, h, ih]

theorem lookupBlock_setBlock_ne (m : Memory) (bi bj : Int) (b : List Int)
    (h : bi ≠ bj) :
    (m.setBlock bi b).lookupBlock bj = m.lookupBlock bj := by
  induction m with
  | nil => simp [Memory.setBlock, Memory.lookupBlock, h]
  | cons p rest ih =>
      obtain ⟨k, b0⟩ := p
      by_cases hk : k = bi
      · subst hk
        simp [Memory.setBlock, Memory.lookupBlock, h]
      · simp [Memory.setBlock, Memory.lookupBlock, hk, ih]

theorem mem_setBlock (m : Memory) (bi : Int) (b : List Int) (p : Int × List Int)
    (hp : p ∈ m.setBlock bi b) : p = (bi, b) ∨ p ∈ m := by
  induction m with
  | nil =>
      simp [Memory.setBlock] at hp
      exact Or.inl hp
  | cons q rest ih =>
      obtain ⟨k, b0⟩ := q
      by_cases hk : k = bi
      · subst hk
        simp [Memory.setBlock] at hp
        rcases hp with h | h
        · exact Or.inl (by simp [h])
        · exact Or.inr (List.mem_cons_of_mem _ h)
      · simp [Memory.setBlock, hk] at hp
        rcases hp with h | h
        · exact Or.inr (by simp [h])
        · rcases ih h with h1 | h1
          · exact Or.inl h1
          · exact Or.inr (List.mem_cons_of_mem _ h1)

theorem Memory.wf_setBlock {m : Memory} {bi : Int} {b : List Int}
    (hm : m.wf) (hb : b.length = 64) : (m.setBlock bi b).wf := by
  intro p hp
  rcases mem_setBlock m bi b p hp with h | h
  · rw [h]
    exact hb
  · exact hm p h

theorem lookupBlock_wf {m : Memory} {bi : Int} {b : List Int}
    (hm : m.wf) (h : m.lookupBlock bi = some b) : b.length = 64 := by
  induction m with
  | nil => simp [Memory.lookupBlock] at h
  | cons p rest ih =>
      obtain ⟨k, b0⟩ := p
      by_cases hk : k = bi
      · rw [Memory.lookupBlock, if_pos hk] at h
        cases h
        exact hm (k, b) (by simp)
      · rw [Memory.lookupBlock, if_neg hk] at h
        exact ih (fun q hq => hm q (List.mem_cons_of_mem _ hq)) h

theorem lookupBlock_ensureBlock_self (m : Memory) (bi : Int) :
    ∃ b, (m.ensureBlock bi).lookupBlock bi = some b ∧
      (m.lookupBlock bi = some b ∨ (m.lookupBlock bi = none ∧ b = zeroBlock)) := by
  unfold Memory.ensureBlock
  cases h : m.lookupBlock bi with
  | some b => exact ⟨b, by simp [h], Or.inl rfl⟩
  | none =>
      exact ⟨zeroBlock, by simp [lookupBlock_setBlock_self], Or.inr ⟨rfl, rfl⟩⟩

theorem lookupBlock_ensureBlock_ne (m : Memory) (bi bj : Int) (h : bi ≠ bj) :
    (m.ensureBlock bi).lookupBlock bj = m.lookupBlock bj := by
  unfold Memory.ensureBlock
  cases hm : m.lookupBlock bi with
  | some b => rfl
  | none => exact lookupBlock_setBlock_ne m bi bj zeroBlock h

theorem Memory.wf_ensureBlock {m : Memory} (hm : m.wf) (bi : Int) :
    (m.ensureBlock bi).wf := by
  unfold Memory.ensureBlock
  cases hb : m.lookupBlock bi with
  | some b => exact hm
  | none => exact Memory.wf_setBlock hm (by simp [zeroBlock])

theorem zeroBlock_getD (k : Nat) : zeroBlock.getD k 0 = 0 := by
  rw [zeroBlock, List.getD_eq_getElem?_getD, List.getElem?_replicate]
  split <;> rfl

/-- Decomposition of a nonnegative address into block index and offset:
with `0 ≤ a`, `a.fdiv 64 = a / 64` and the in-block offset is `a % 64`,
a natural number below 64. -/
theorem addr_decomp (a : Int) :
    Int.fdiv a BLOCK_SIZE = a / 64 ∧
    a - (a / 64) * BLOCK_SIZE = a % 64 ∧
    0 ≤ a % 64 ∧ a % 64 < 64 := by
  have hB : BLOCK_SIZE = (64 : Int) := rfl
  refine ⟨?_, ?_, Int.emod_nonneg a (by norm_num), Int.emod_lt_of_pos a (by norm_num)⟩
  · rw [hB]
    exact Int.fdiv_eq_ediv a (by norm_num)
  · rw [hB]
    have h := Int.ediv_add_emod a 64
    omega

/-- Two distinct addresses in the same block have different offsets. -/
theorem addr_inj {a b : Int} (hne : a ≠ b)
    (hq : a / 64 = b / 64) : (a % 64).toNat ≠ (b % 64).toNat := by
  intro h
  apply hne
  have h1 := Int.ediv_add_emod a 64
  have h2 := Int.ediv_add_emod b 64
  have ha64 : (0:Int) ≤ a % 64 := Int.emod_nonneg a (by norm_num)
  have hb64 : (0:Int) ≤ b % 64 := Int.emod_nonneg b (by norm_num)
  omega

theorem write_memory_returns (m : Memory) (a v : Int) (hv : 0 ≤ v ∧ v ≤ 255) :
    (Memory.write_memory m a v).2 = .ok v := by
  unfold Memory.write_memory
  simp only [if_pos hv]
  split <;> rfl

/-- If the block already exists, `ensureBlock` is the identity. -/
theorem ensureBlock_of_some {m : Memory} {bi : Int} {c : List Int}
    (h : m.lookupBlock bi = some c) : m.ensureBlock bi = m := by
  unfold Memory.ensureBlock
  rw [h]

/-- Closed form of `write_memory` on an in-range byte. -/
theorem write_memory_eq (m : Memory) (a v : Int) (hv : 0 ≤ v ∧ v ≤ 255)
    (b : List Int)
    (hb : (m.ensureBlock (Int.fdiv a BLOCK_SIZE)).lookupBlock
      (Int.fdiv a BLOCK_SIZE) = some b) :
    Memory.write_memory m a v =
      ((m.ensureBlock (Int.fdiv a BLOCK_SIZE)).setBlock (Int.fdiv a BLOCK_SIZE)
        (b.set (a - Int.fdiv a BLOCK_SIZE * BLOCK_SIZE).toNat v), .ok v) := by
  unfold Memory.write_memory
  simp only [if_pos hv, hb]

/-- Closed form of `read_memory`. -/
theorem read_memory_eq (m : Memory) (a : Int) (b : List Int)
    (hb : (m.ensureBlock (Int.fdiv a BLOCK_SIZE)).lookupBlock
      (Int.fdiv a BLOCK_SIZE) = some b) :
    Memory.read_memory m a =
      (m.ensureBlock (Int.fdiv a BLOCK_SIZE),
        b.getD (a - Int.fdiv a BLOCK_SIZE * BLOCK_SIZE).toNat 0) := by
  unfold Memory.read_memory
  simp only [hb]

theorem read_after_write {m : Memory} (hm : m.wf) (a : Int) {v : Int}
    (hv : 0 ≤ v ∧ v ≤ 255) :
    ((Memory.write_memory m a v).1.read_memory a).2 = v := by
  obtain ⟨hfd, hoff, hge, hlt⟩ := addr_decomp a
  obtain ⟨b, hb, hcase⟩ := lookupBlock_ensureBlock_self m (Int.fdiv a BLOCK_SIZE)
  have hblen : b.length = 64 := by
    rcases hcase with h | ⟨_, h⟩
    · exact lookupBlock_wf hm h
    · rw [h, zeroBlock]
      simp
  have hoff_lt : (a - Int.fdiv a BLOCK_SIZE * BLOCK_SIZE).toNat < b.length := by
    rw [hfd, hoff, hblen]
    omega
  rw [write_memory_eq m a v hv b hb]
  have hm'l :
      (((m.ensureBlock (Int.fdiv a BLOCK_SIZE)).setBlock (Int.fdiv a BLOCK_SIZE)
        (b.set (a - Int.fdiv a BLOCK_SIZE * BLOCK_SIZE).toNat v))).lookupBlock
          (Int.fdiv a BLOCK_SIZE) =
        some (b.set (a - Int.fdiv a BLOCK_SIZE * BLOCK_SIZE).toNat v) :=
    lookupBlock_setBlock_self _ _ _
  rw [read_memory_eq _ a _ (by rw [ensureBlock_of_some hm'l]; exact hm'l)]
  show (List.set b _ v).getD _ 0 = v
  rw [List.getD_eq_getElem?_getD, List.getElem?_set_eq_of_lt v hoff_lt]
  rfl

/-- Ensuring a missing block installs the zero block. -/
theorem lookupBlock_ensureBlock_none {m : Memory} {bi : Int}
    (h : m.lookupBlock bi = none) :
    (m.ensureBlock bi).lookupBlock bi = some zeroBlock := by
  unfold Memory.ensureBlock
  rw [h]
  exact lookupBlock_setBlock_self _ _ _

theorem read_memory_init (a : Int) : (Memory.read_memory Memory.init a).2 = 0 := by
  have hnone : Memory.lookupBlock Memory.init (Int.fdiv a BLOCK_SIZE) = none := rfl
  rw [read_memory_eq _ a _ (lookupBlock_ensureBlock_none hnone)]
  exact zeroBlock_getD _

theorem write_memory_frame {m : Memory} (hm : m.wf) {a a' v : Int}
    (hne : a ≠ a') (hv : 0 ≤ v ∧ v ≤ 255) :
    ((Memory.write_memory m a v).1.read_memory a').2 = (m.read_memory a').2 := by
  obtain ⟨hfd, hoff, hge, hlt⟩ := addr_decomp a
  obtain ⟨hfd', hoff', hge', hlt'⟩ := addr_decomp a'
  obtain ⟨b, hb, hcase⟩ := lookupBlock_ensureBlock_self m (Int.fdiv a BLOCK_SIZE)
  rw [write_memory_eq m a v hv b hb]
  by_cases hq : Int.fdiv a BLOCK_SIZE = Int.fdiv a' BLOCK_SIZE
  · -- same block: the write changes one offset, the read uses another
    have hblen : b.length = 64 := by
      rcases hcase with h | ⟨_, h⟩
      · exact lookupBlock_wf hm h
      · rw [h, zeroBlock]
        simp
    have hoffne : (a - Int.fdiv a BLOCK_SIZE * BLOCK_SIZE).toNat ≠
        (a' - Int.fdiv a' BLOCK_SIZE * BLOCK_SIZE).toNat := by
      rw [hfd, hoff, hfd', hoff']
      exact addr_inj hne (by rw [← hfd, ← hfd', hq])
    have hm'l :
        (((m.ensureBlock (Int.fdiv a BLOCK_SIZE)).setBlock (Int.fdiv a BLOCK_SIZE)
          (b.set (a - Int.fdiv a BLOCK_SIZE * BLOCK_SIZE).toNat v))).lookupBlock
            (Int.fdiv a' BLOCK_SIZE) =
          some (b.set (a - Int.fdiv a BLOCK_SIZE * BLOCK_SIZE).toNat v) := by
      rw [← hq]
      exact lookupBlock_setBlock_self _ _ _
    have hb' : (m.ensureBlock (Int.fdiv a' BLOCK_SIZE)).lookupBlock
        (Int.fdiv a' BLOCK_SIZE) = some b := by
      rw [← hq]
      exact hb
    rw [read_memory_eq _ a' _ (by rw [ensureBlock_of_some hm'l]; exact hm'l),
      read_memory_eq m a' b hb']
    show (List.set b _ v).getD _ 0 = b.getD _ 0
    rw [List.getD_eq_getElem?_getD, List.getD_eq_getElem?_getD,
      List.getElem?_set_ne hoffne]
  · -- different blocks: the read's block is untouched by the write
    have hm'bi' :
        (((m.ensureBlock (Int.fdiv a BLOCK_SIZE)).setBlock (Int.fdiv a BLOCK_SIZE)
          (b.set (a - Int.fdiv a BLOCK_SIZE * BLOCK_SIZE).toNat v))).lookupBlock
            (Int.fdiv a' BLOCK_SIZE) = m.lookupBlock (Int.fdiv a' BLOCK_SIZE) := by
      rw [lookupBlock_setBlock_ne _ _ _ _ hq, lookupBlock_ensureBlock_ne _ _ _ hq]
    cases hc : m.lookupBlock (Int.fdiv a' BLOCK_SIZE) with
    | some c =>
        have h1 := ensureBlock_of_some (c := c) (by rw [hm'bi']; exact hc)
        have h2 := ensureBlock_of_some hc
        rw [read_memory_eq _ a' c (by rw [h1, hm'bi']; exact hc),
          read_memory_eq m a' c (by rw [h2]; exact hc)]
    | none =>
        have h1 := @lookupBlock_ensureBlock_none
          ((m.ensureBlock (Int.fdiv a BLOCK_SIZE)).setBlock (Int.fdiv a BLOCK_SIZE)
            (b.set (a - Int.fdiv a BLOCK_SIZE * BLOCK_SIZE).toNat v))
          (Int.fdiv a' BLOCK_SIZE) (by rw [hm'bi']; exact hc)
        have h2 := lookupBlock_ensureBlock_none hc
        rw [read_memory_eq _ a' _ h1, read_memory_eq m a' _ h2]

/-! ## Reduction lemmas for the `Except` monad -/

@[simp]
theorem except_bind_ok {ε α β : Type} (a : α) (f : α → Except ε β) :
    (Except.ok a >>= f) = f a := rfl

@[simp]
theorem except_bind_error {ε α β : Type} (e : ε) (f : α → Except ε β) :
    ((Except.error e : Except ε α) >>= f) = Except.error e := rfl

@[simp]
theorem except_pure {ε α : Type} (a : α) :
    (pure a : Except ε α) = Except.ok a := rfl

@[simp]
theorem except_throw {ε α : Type} (e : ε) :
    (throw e : Except ε α) = Except.error e := rfl

/-! ## Helper lemmas about `short_int` -/

/-- On `[-32768, 32768]` the source's `short_int` agrees with the
spec's 16-bit wraparound. -/
theorem short_int_eq_wrap16 {x : Int} (h1 : -32768 ≤ x) (h2 : x ≤ 32768) :
    short_int x = wrap16 x := by
  simp only [short_int, wrap16]
  rw [Int.fdiv_eq_ediv x (by norm_num)]
  split_ifs <;> omega

/-- On `[0, 32767]` the source's `short_int` is the identity. -/
theorem short_int_id {x : Int} (h1 : 0 ≤ x) (h2 : x ≤ 32767) :
    short_int x = x := by
  simp only [short_int]
  rw [Int.fdiv_eq_ediv x (by norm_num)]
  split_ifs <;> omega

/-- On `[-32768, -1]` the source's `short_int` is the identity. -/
theorem short_int_id_neg {x : Int} (h1 : -32768 ≤ x) (h2 : x < 0) :
    short_int x = x := by
  simp only [short_int]
  rw [Int.fdiv_eq_ediv x (by norm_num)]
  split_ifs <;> omega

/-- When the byte is invalid for the `bytearray` assignment,
`write_memory` has ensured the block and then raised. -/
theorem write_memory_invalid (m : Memory) (address v : Int)
    (hv : ¬(0 ≤ v ∧ v ≤ 255)) :
    Memory.write_memory m address v =
      (m.ensureBlock (Int.fdiv address BLOCK_SIZE), .error .valueError) := by
  unfold Memory.write_memory
  simp [hv]

/-! ## Helper lemmas about program-line lookup and LIST output -/

theorem containsKey_of_lookup {ls : Lines} {k : Int} {pl : ProgLine}
    (h : lookupLine ls k = some pl) : containsKey ls k = true := by
  induction ls with
  | nil => simp [lookupLine] at h
  | cons p rest ih =>
      by_cases hk : p.1 = k
      · simp [containsKey, hk]
      · rw [lookupLine] at h
        · simp only [containsKey, List.any_cons]
          rw [Bool.or_eq_true]
          exact Or.inr (ih (by rw [← h]; rw [if_neg hk]))

theorem lookup_of_containsKey {ls : Lines} {k : Int}
    (h : containsKey ls k = true) : ∃ pl, lookupLine ls k = some pl := by
  induction ls with
  | nil => simp [containsKey] at h
  | cons p rest ih =>
      by_cases hk : p.1 = k
      · exact ⟨p.2, by rw [lookupLine, if_pos hk]⟩
      · simp only [containsKey, List.any_cons, Bool.or_eq_true] at h
        rcases h with h | h
        · exact absurd (by simpa using h) hk
        · obtain ⟨pl, hpl⟩ := ih h
          exact ⟨pl, by rw [lookupLine, if_neg hk]; exact hpl⟩

/-- The LIST range loop appends exactly the sources of the stored lines
whose numbers fall in `[low, high]`, in storage order. -/
theorem list_range_foldl (ls : Lines) (s : InterpState) (low high : Int) :
    (ls.foldl
      (fun acc p =>
        if low ≤ p.1 ∧ p.1 ≤ high then printOut acc (p.2.source ++ "\n")
        else acc) s) =
    { s with output := (s.output ++
        ((ls.filter (fun p => decide (low ≤ p.1 ∧ p.1 ≤ high))).map
          (fun p => p.2.source ++ "\n"))) } := by
  induction ls generalizing s with
  | nil => simp
  | cons p rest ih =>
      rw [List.foldl_cons]
      by_cases hp : low ≤ p.1 ∧ p.1 ≤ high
      · rw [if_pos hp, ih]
        simp [printOut, hp]
      · rw [if_neg hp, ih]
        simp [hp]

/-- The variables the linter's pass marks initialized for one
statement: the (upper-cased) targets of a top-level LET/assignment or
INPUT; an IF's branch statement contributes nothing because the
linter's `visit_if_statement` does not descend into it. -/
def stmtInits : Stmt → List Char
  | .letS v _ => [v.toUpper]
  | .inputS vs => vs.map Char.toUpper
  | _ => []

end Tbp

/-!  ## Claim C1  -/

/-- Claim C1 (code_bug).  The claim says assigning any integer `x` into a
node value slot or symbol entry and reading it back yields `x` reduced
modulo 65536 reinterpreted as signed 16-bit, a value in [-32768, 32767].
Every such write site funnels through `helpers.short_int`, but
`short_int` tests `x >> 15` on the *original* argument instead of on
the 16-bit-stripped value, so at `x = 65536` it returns `-65536`:
outside [-32768, 32767] and different from the claimed wraparound
value `0`.  (The spec's two worked examples, `0x111FFFF ↦ -1` and
`0xFFFF ↦ -1`, are reproduced by the code and by the claimed
wraparound alike; the divergence is at inputs whose low 16 bits are
below `0x8000` while bits above survive, e.g. `0x10000`.) -/
theorem C1_short_int_wraparound_bug :
    Tbp.short_int 65536 = -65536 ∧
    Tbp.wrap16 65536 = 0 ∧
    Tbp.short_int 65536 ≠ Tbp.wrap16 65536 ∧
    Tbp.short_int 65535 = -1 ∧
    Tbp.short_int 0x111FFFF = -1 ∧
    (Tbp.short_int 65536 < -32768 ∨ 32767 < Tbp.short_int 65536) := by
  refine ⟨by decide, by decide, by decide, by decide, ?_, by decide⟩
  decide

/-!  ## Claim C2  -/

/-- Claim C2 counterexample.  The claim says a unary `+` expression
yields its operand's value unchanged.  `visit_unary_expression`
(interpreter.py 714) computes `abs(value)` for unary `+`: with an
operand evaluating to `-1` the unary-plus expression evaluates to `1`,
not `-1`. -/
theorem C2_unary_plus_not_identity :
    Tbp.evalExpr (fun _ => 0) Tbp.initState
      (.unary .plus (.unary .minus (.lit 1))) = .ok (Tbp.initState, 1) ∧
    (1 : Int) ≠ -1 := by
  exact ⟨rfl, by decide⟩

/-- Claim C2 amended.  For an operand evaluating to `v` (without state
change), unary `-` evaluates to `short_int (-v)` and unary `+` to
`short_int |v|` — the absolute value, not `v` unchanged; on operand
values in the 16-bit range `[-32768, 32767]` (the values evaluation
produces when no value has hit the `short_int` overflow bug of C1),
`short_int (-v)` is exactly the claimed 16-bit wrap of `-v`, and the
`+` result is the 16-bit wrap of `|v|`. -/
theorem C2_unary_eval (rf : Int → Int) (s : Tbp.InterpState) (e : Tbp.Expr)
    (v : Int) (h : Tbp.evalExpr rf s e = .ok (s, v)) :
    Tbp.evalExpr rf s (.unary .minus e) = .ok (s, Tbp.short_int (-v)) ∧
    Tbp.evalExpr rf s (.unary .plus e) = .ok (s, Tbp.short_int |v|) ∧
    (-32768 ≤ v → v ≤ 32767 →
      Tbp.short_int (-v) = Tbp.wrap16 (-v) ∧
      Tbp.short_int |v| = Tbp.wrap16 |v|) := by
  refine ⟨by simp [Tbp.evalExpr, h], by simp [Tbp.evalExpr, h], ?_⟩
  intro h1 h2
  constructor
  · exact Tbp.short_int_eq_wrap16 (by omega) (by omega)
  · have habs : 0 ≤ |v| := abs_nonneg v
    have habs2 : |v| ≤ 32768 := by
      rcases abs_cases v with ⟨he, _⟩ | ⟨he, _⟩ <;> omega
    exact Tbp.short_int_eq_wrap16 (by omega) habs2

/-- Claim C2 witness: instantiation at operand value 5. -/
theorem C2_unary_eval_witness :
    Tbp.evalExpr (fun _ => 0) Tbp.initState (.unary .minus (.lit 5)) =
      .ok (Tbp.initState, Tbp.short_int (-5)) ∧
    Tbp.evalExpr (fun _ => 0) Tbp.initState (.unary .plus (.lit 5)) =
      .ok (Tbp.initState, Tbp.short_int |(5 : Int)|) ∧
    (-32768 ≤ (5 : Int) → (5 : Int) ≤ 32767 →
      Tbp.short_int (-5) = Tbp.wrap16 (-5) ∧
      Tbp.short_int |(5 : Int)| = Tbp.wrap16 |(5 : Int)|) :=
  C2_unary_eval (fun _ => 0) Tbp.initState (.lit 5) 5 (by rfl)

/-!  ## Claim C10  -/

/-- Claim C10 (confirmed).  For a well-formed memory (every block is 64
bytes — the invariant the store maintains), a nonnegative address and a
byte value in [0, 255]: `write_memory` returns the written value; a
subsequent `read_memory` at the same address returns it; a read of a
never-written address (from the initial memory) returns 0; and the
write does not change the value read at any other address. -/
theorem C10_memory_store_contract (m : Tbp.Memory) (a a2 v : Int)
    (hwf : m.wf) (_ha : 0 ≤ a) (_ha2 : 0 ≤ a2) (hne : a ≠ a2)
    (hv : 0 ≤ v ∧ v ≤ 255) :
    (Tbp.Memory.write_memory m a v).2 = .ok v ∧
    ((Tbp.Memory.write_memory m a v).1.read_memory a).2 = v ∧
    (Tbp.Memory.read_memory Tbp.Memory.init a).2 = 0 ∧
    ((Tbp.Memory.write_memory m a v).1.read_memory a2).2 =
      (m.read_memory a2).2 :=
  ⟨Tbp.write_memory_returns m a v hv, Tbp.read_after_write hwf a hv,
    Tbp.read_memory_init a, Tbp.write_memory_frame hwf hne hv⟩

/-- Claim C10 witness: write 7 at address 5, then read addresses 5 and
70 of the resulting memory. -/
theorem C10_memory_store_contract_witness :
    (Tbp.Memory.write_memory Tbp.Memory.init 5 7).2 = .ok 7 ∧
    ((Tbp.Memory.write_memory Tbp.Memory.init 5 7).1.read_memory 5).2 = 7 ∧
    (Tbp.Memory.read_memory Tbp.Memory.init 5).2 = 0 ∧
    ((Tbp.Memory.write_memory Tbp.Memory.init 5 7).1.read_memory 70).2 =
      (Tbp.Memory.init.read_memory 70).2 :=
  C10_memory_store_contract Tbp.Memory.init 5 70 7 Tbp.Memory.wf_init
    (by decide) (by decide) (by decide) ⟨by decide, by decide⟩

/-!  ## Claim C3  -/

/-- Claim C3 counterexample.  The byte value 256 is *inside* the
validated range `[0, 256]` (`visit_usr_expression` rejects only
`the_byte < 0 or the_byte > 256`, interpreter.py 852), so the claim
asserts the write is performed and the USR value is 256.  In fact the
`bytearray` assignment inside `Memory.write_memory` raises an untyped
`ValueError` (bytes are 0-255): `USR(280, 100, 256)` evaluates to an
untyped error, no byte is written (the lazily allocated block is still
all zeros: reading address 100 afterwards yields 0), and the session
crashes since `except TbpBaseError` does not catch `ValueError`. -/
theorem C3_usr_write_256_crashes :
    Tbp.evalExpr (fun _ => 0) Tbp.initState
      (.usr (.lit 280) (some (.lit 100)) (some (.lit 256))) =
      .error (.untyped .valueError,
        { Tbp.initState with mem := [(1, Tbp.zeroBlock)] }) ∧
    (Tbp.Memory.read_memory [(1, Tbp.zeroBlock)] 100).2 = 0 := by
  exact ⟨rfl, rfl⟩

/-- Claim C3 amended.  Evaluating a USR write call (routine code 280)
with address operand `a` and byte operand `b`: the address is
normalized by adding 65536 when negative; `b < 0` or `b > 256` raises a
typed runtime error (naming `b`) and the state is unchanged, so no
memory write occurs; for `b` in `[0, 255]` the Memory Store write is
performed at the normalized address and the USR expression's value is
the written byte value; for `b = 256` — which passes the validation —
the underlying byte store raises an untyped `ValueError` and no byte
value is stored (only the zeroed block allocation performed before the
failing assignment persists). -/
theorem C3_usr_write_eval (rf : Int → Int) (s : Tbp.InterpState)
    (ea eb : Tbp.Expr) (a b : Int)
    (ha : Tbp.evalExpr rf s ea = .ok (s, a))
    (hb : Tbp.evalExpr rf s eb = .ok (s, b)) :
    (b < 0 ∨ b > 256 →
      Tbp.evalExpr rf s (.usr (.lit 280) (some ea) (some eb)) =
        .error (.typed (.usrByteRange b), s)) ∧
    (0 ≤ b ∧ b ≤ 255 →
      Tbp.evalExpr rf s (.usr (.lit 280) (some ea) (some eb)) =
        .ok ({ s with mem := (Tbp.Memory.write_memory s.mem
          (if a < 0 then 65536 + a else a) b).1 }, b)) ∧
    (b = 256 →
      Tbp.evalExpr rf s (.usr (.lit 280) (some ea) (some eb)) =
        .error (.untyped .valueError,
          { s with mem := (s.mem.ensureBlock
            (Int.fdiv (if a < 0 then 65536 + a else a) Tbp.BLOCK_SIZE)) })) := by
  have h280 : Tbp.short_int 280 = 280 := by decide
  refine ⟨?_, ?_, ?_⟩
  · intro hbOut
    simp [Tbp.evalExpr, ha, hb, hbOut, h280]
  · intro hbIn
    have hb2 : ¬(b < 0 ∨ b > 256) := by omega
    have hid : Tbp.short_int b = b := Tbp.short_int_id hbIn.1 (by omega)
    obtain ⟨bk, hbk, _⟩ := Tbp.lookupBlock_ensureBlock_self s.mem
      (Int.fdiv (if a < 0 then 65536 + a else a) Tbp.BLOCK_SIZE)
    have hwr := Tbp.write_memory_eq s.mem (if a < 0 then 65536 + a else a) b
      hbIn bk hbk
    simp only [Tbp.evalExpr, ha, hb, Tbp.except_bind_ok, hb2, if_false, hwr,
      hid, h280]
    simp
  · intro hb256
    subst hb256
    have hwr := Tbp.write_memory_invalid s.mem (if a < 0 then 65536 + a else a)
      256 (by omega)
    simp only [Tbp.evalExpr, ha, hb, Tbp.except_bind_ok, h280, hwr]
    simp

/-- Claim C3 witness: address 100, byte 50. -/
theorem C3_usr_write_eval_witness :
    ((50 : Int) < 0 ∨ (50 : Int) > 256 →
      Tbp.evalExpr (fun _ => 0) Tbp.initState
        (.usr (.lit 280) (some (.lit 100)) (some (.lit 50))) =
        .error (.typed (.usrByteRange 50), Tbp.initState)) ∧
    ((0 : Int) ≤ 50 ∧ (50 : Int) ≤ 255 →
      Tbp.evalExpr (fun _ => 0) Tbp.initState
        (.usr (.lit 280) (some (.lit 100)) (some (.lit 50))) =
        .ok ({ Tbp.initState with mem := (Tbp.Memory.write_memory
          Tbp.initState.mem (if (100 : Int) < 0 then 65536 + 100 else 100)
            50).1 }, 50)) ∧
    ((50 : Int) = 256 →
      Tbp.evalExpr (fun _ => 0) Tbp.initState
        (.usr (.lit 280) (some (.lit 100)) (some (.lit 50))) =
        .error (.untyped .valueError,
          { Tbp.initState with mem := (Tbp.initState.mem.ensureBlock
            (Int.fdiv (if (100 : Int) < 0 then 65536 + 100 else 100)
              Tbp.BLOCK_SIZE)) })) :=
  C3_usr_write_eval (fun _ => 0) Tbp.initState (.lit 100) (.lit 50) 100 50
    (by rfl) (by rfl)

/-!  ## Claim C8  -/

/-- Claim C8 counterexample.  The claim says that for every nonzero
bound, including negative ones, no untyped exception escapes RND.
`visit_random_expression` (interpreter.py 763-780) only guards against
a zero bound and then calls `secrets.randbelow`, which raises an
untyped `ValueError` for a non-positive bound: `RND(-1)` evaluates to
an escaping untyped error. -/
theorem C8_rnd_negative_bound_crashes :
    Tbp.evalExpr (fun _ => 0) Tbp.initState (.rnd (.unary .minus (.lit 1))) =
      .error (.untyped .valueError, Tbp.initState) := by
  exact rfl

/-- Claim C8 amended.  For an inner expression evaluating to `v`, under
`randbelow`'s contract `∀ n > 0, 0 ≤ rf n < n`: a typed runtime error
is raised iff `v = 0`; for negative `v` the untyped `ValueError` from
`secrets.randbelow` escapes; for positive `v` the result is
`short_int (rf v)`, which for `v ≤ 32767` (every positive value
evaluation can produce) lies in `[0, v)`. -/
theorem C8_rnd_eval (rf : Int → Int) (s : Tbp.InterpState) (e : Tbp.Expr)
    (v : Int) (hrand : ∀ n : Int, 0 < n → 0 ≤ rf n ∧ rf n < n)
    (h : Tbp.evalExpr rf s e = .ok (s, v)) :
    (v = 0 → Tbp.evalExpr rf s (.rnd e) = .error (.typed .rndZero, s)) ∧
    (v < 0 → Tbp.evalExpr rf s (.rnd e) = .error (.untyped .valueError, s)) ∧
    (0 < v → Tbp.evalExpr rf s (.rnd e) = .ok (s, Tbp.short_int (rf v)) ∧
      (v ≤ 32767 → 0 ≤ Tbp.short_int (rf v) ∧ Tbp.short_int (rf v) < v)) := by
  refine ⟨?_, ?_, ?_⟩
  · intro hv
    subst hv
    simp [Tbp.evalExpr, h]
  · intro hv
    have hne : v ≠ 0 := by omega
    have hle : v ≤ 0 := by omega
    simp [Tbp.evalExpr, h, hne, Tbp.randbelow, hle]
  · intro hv
    have hne : v ≠ 0 := by omega
    have hgt : ¬(v ≤ 0) := by omega
    constructor
    · simp [Tbp.evalExpr, h, hne, Tbp.randbelow, hgt]
    · intro hv2
      obtain ⟨h0, h1⟩ := hrand v hv
      have hid : Tbp.short_int (rf v) = rf v := Tbp.short_int_id h0 (by omega)
      rw [hid]
      exact ⟨h0, h1⟩

/-- Claim C8 witness: bound 10 with the all-zeros random source. -/
theorem C8_rnd_eval_witness :
    ((10 : Int) = 0 → Tbp.evalExpr (fun _ => 0) Tbp.initState
      (.rnd (.lit 10)) = .error (.typed .rndZero, Tbp.initState)) ∧
    ((10 : Int) < 0 → Tbp.evalExpr (fun _ => 0) Tbp.initState
      (.rnd (.lit 10)) = .error (.untyped .valueError, Tbp.initState)) ∧
    ((0 : Int) < 10 → Tbp.evalExpr (fun _ => 0) Tbp.initState
      (.rnd (.lit 10)) = .ok (Tbp.initState, Tbp.short_int ((fun _ => (0 : Int)) (10 : Int))) ∧
      ((10 : Int) ≤ 32767 → 0 ≤ Tbp.short_int ((fun _ => (0 : Int)) (10 : Int)) ∧
        Tbp.short_int ((fun _ => (0 : Int)) (10 : Int)) < 10)) :=
  C8_rnd_eval (fun _ => 0) Tbp.initState (.lit 10) 10
    (fun n hn => ⟨le_refl 0, hn⟩) (by rfl)

/-!  ## Claim C4  -/

/-- Claim C4 counterexample.  The claim says that when exactly one
bound is given and that line exists, LIST prints exactly that single
line.  The code's single-line condition (interpreter.py 973-975) is
`low_line != 1 and high_line == 32767 and low_line in lines`: with a
program holding lines 1 and 2, `LIST 1` resolves to bounds (1, 32767),
fails the `low_line != 1` test, and prints *both* stored lines, not
just line 1. -/
theorem C4_list_single_bound_counterexample :
    Tbp.execStmt (fun _ => 0)
      { Tbp.initState with
        lines := [(1, ⟨"1 PRINT 1", .print [.expr (.lit 1)]⟩),
                  (2, ⟨"2 END", .endS⟩)] }
      (.list (some (.lit 1)) none) =
      .ok { Tbp.initState with
        lines := [(1, ⟨"1 PRINT 1", .print [.expr (.lit 1)]⟩),
                  (2, ⟨"2 END", .endS⟩)],
        output := ["1 PRINT 1\n", "2 END\n"] } ∧
    (["1 PRINT 1\n", "2 END\n"] : List String) ≠ ["1 PRINT 1\n"] := by
  refine ⟨rfl, ?_⟩
  simp

/-- Claim C4 amended.  Evaluating LIST with resolved bounds `low`
(default 1) and `high` (default 32767): a typed runtime error is raised
unless `low < high` and both bounds are within `[1, 32767]`; when the
resolved low bound differs from 1, the resolved high bound equals
32767, and line `low` is stored (the code's test for "one bound was
given naming an existing line" — it misclassifies `LIST 1` and
`LIST x,32767`), exactly that single line is printed; otherwise every
stored line whose number lies in the inclusive range `[low, high]` is
printed, in line order. -/
theorem C4_list_eval (rf : Int → Int) (s : Tbp.InterpState)
    (sb eb : Option Tbp.Expr) (low high : Int)
    (hlow : Tbp.resolveListBound rf s sb 1 = .ok (s, low))
    (hhigh : Tbp.resolveListBound rf s eb 32767 = .ok (s, high)) :
    (low ≥ high →
      Tbp.execStmt rf s (.list sb eb) =
        .error (.typed (.listOrder low high), s)) ∧
    (low < high → (low < 1 ∨ low > 32767 ∨ high < 1 ∨ high > 32767) →
      Tbp.execStmt rf s (.list sb eb) =
        .error (.typed (.listRange low high), s)) ∧
    (low < high → 1 ≤ low → low ≤ 32767 → 1 ≤ high → high ≤ 32767 →
      (∀ pl, low ≠ 1 → high = 32767 → Tbp.lookupLine s.lines low = some pl →
        Tbp.execStmt rf s (.list sb eb) =
          .ok { s with output := s.output ++ [pl.source ++ "\n"] }) ∧
      (¬(low ≠ 1 ∧ high = 32767 ∧ Tbp.containsKey s.lines low = true) →
        Tbp.execStmt rf s (.list sb eb) =
          .ok { s with output := (s.output ++
            ((s.lines.filter (fun p => decide (low ≤ p.1 ∧ p.1 ≤ high))).map
              (fun p => p.2.source ++ "\n"))) })) := by
  refine ⟨?_, ?_, ?_⟩
  · intro hord
    simp [Tbp.execStmt, hlow, hhigh, hord]
  · intro hord hrange
    have hv : Tbp.validate_line_numbers low high = false := by
      simp only [Tbp.validate_line_numbers]
      simp only [decide_eq_false_iff_not]
      omega
    have hord2 : ¬(low ≥ high) := by omega
    simp [Tbp.execStmt, hlow, hhigh, hord2, hv]
  · intro hord h1 h2 h3 h4
    have hord2 : ¬(low ≥ high) := by omega
    have hv : ¬(Tbp.validate_line_numbers low high = false) := by
      simp only [Tbp.validate_line_numbers]
      simp only [decide_eq_false_iff_not]
      omega
    constructor
    · intro pl hne h327 hlook
      subst h327
      have hck := Tbp.containsKey_of_lookup hlook
      simp only [Tbp.execStmt, hlow, hhigh, Tbp.except_bind_ok]
      rw [if_neg hord2, if_neg hv,
        if_pos (show low ≠ 1 ∧ True ∧ Tbp.containsKey s.lines low = true from
          ⟨hne, trivial, hck⟩), hlook]
      simp [Tbp.printOut]
    · intro hncond
      simp only [Tbp.execStmt, hlow, hhigh, Tbp.except_bind_ok]
      rw [if_neg hord2, if_neg hv, if_neg (by simpa using hncond)]
      rw [Tbp.list_range_foldl]
      rfl

/-- A two-line program fixture used to instantiate claim theorems. -/
def exampleListState : Tbp.InterpState :=
  { Tbp.initState with
    lines := [(5, ⟨"5 PRINT 1", .print [.expr (.lit 1)]⟩),
              (7, ⟨"7 END", .endS⟩)] }

/-- Claim C4 witness: `LIST 5` (one bound, line 5 stored) on a program
with lines 5 and 7. -/
theorem C4_list_eval_witness :
    ((5 : Int) ≥ 32767 →
      Tbp.execStmt (fun _ => 0) exampleListState (.list (some (.lit 5)) none) =
        .error (.typed (.listOrder 5 32767), exampleListState)) ∧
    ((5 : Int) < 32767 →
      ((5 : Int) < 1 ∨ (5 : Int) > 32767 ∨ (32767 : Int) < 1 ∨
        (32767 : Int) > 32767) →
      Tbp.execStmt (fun _ => 0) exampleListState (.list (some (.lit 5)) none) =
        .error (.typed (.listRange 5 32767), exampleListState)) ∧
    ((5 : Int) < 32767 → (1 : Int) ≤ 5 → (5 : Int) ≤ 32767 →
      (1 : Int) ≤ 32767 → (32767 : Int) ≤ 32767 →
      (∀ pl, (5 : Int) ≠ 1 → (32767 : Int) = 32767 →
        Tbp.lookupLine exampleListState.lines 5 = some pl →
        Tbp.execStmt (fun _ => 0) exampleListState
          (.list (some (.lit 5)) none) =
          .ok { exampleListState with
            output := exampleListState.output ++ [pl.source ++ "\n"] }) ∧
      (¬((5 : Int) ≠ 1 ∧ (32767 : Int) = 32767 ∧
          Tbp.containsKey exampleListState.lines 5 = true) →
        Tbp.execStmt (fun _ => 0) exampleListState
          (.list (some (.lit 5)) none) =
          .ok { exampleListState with
            output := (exampleListState.output ++
              ((exampleListState.lines.filter
                (fun p => decide ((5 : Int) ≤ p.1 ∧ p.1 ≤ (32767 : Int)))).map
                (fun p => p.2.source ++ "\n"))) })) :=
  C4_list_eval (fun _ => 0) exampleListState (some (.lit 5)) none 5 32767
    (by rfl) (by rfl)

/-!  ## Claim C5  -/

/-- Claim C5 (confirmed).  Evaluating a GOSUB whose own source line is
`selfLine` with a target evaluating to `t`: when `t` does not name a
stored line, the typed runtime error `gosubNoExist t` — naming the
target — is raised (and nothing is pushed); otherwise the return
address pushed on the call stack is `getNextLineE s.lines selfLine`,
the program line following the GOSUB's *own* line (the state's
instruction pointer `s.ip` is arbitrary and unused), with the typed
error `gosubRetInvalid` raised when no following line exists. -/
theorem C5_gosub_eval (rf : Int → Int) (s : Tbp.InterpState)
    (selfLine : Int) (te : Tbp.Expr) (t : Int)
    (ht : Tbp.evalExpr rf s te = .ok (s, t)) :
    (Tbp.containsKey s.lines t = false →
      Tbp.execStmt rf s (.gosub selfLine te) =
        .error (.typed (.gosubNoExist t), s)) ∧
    (∀ r, Tbp.containsKey s.lines t = true →
      Tbp.getNextLineE s.lines selfLine = .ok r → r ≠ 0 →
      Tbp.execStmt rf s (.gosub selfLine te) =
        .ok { s with callstack := s.callstack ++ [r], branchIp := t }) ∧
    (Tbp.containsKey s.lines t = true →
      Tbp.getNextLineE s.lines selfLine = .ok 0 →
      Tbp.execStmt rf s (.gosub selfLine te) =
        .error (.typed .gosubRetInvalid, s)) := by
  refine ⟨?_, ?_, ?_⟩
  · intro hnc
    simp [Tbp.execStmt, ht, hnc]
  · intro r hc hnext hr
    simp [Tbp.execStmt, ht, hc, hnext, hr]
  · intro hc hnext
    simp [Tbp.execStmt, ht, hc, hnext]

/-- The spec's own GOSUB example: `10 GOSUB 999` / `20 END`. -/
def exampleGosubState : Tbp.InterpState :=
  { Tbp.initState with
    lines := [(10, ⟨"10 GOSUB 999", .gosub 10 (.lit 999)⟩),
              (20, ⟨"20 END", .endS⟩)] }

/-- Claim C5 witness: running the GOSUB of `10 GOSUB 999 / 20 END`
raises the typed error naming 999 (the spec's worked example), and a
GOSUB to the existing line 20 pushes 20, the line after line 10. -/
theorem C5_gosub_eval_witness :
    ((Tbp.containsKey exampleGosubState.lines 999 = false →
      Tbp.execStmt (fun _ => 0) exampleGosubState (.gosub 10 (.lit 999)) =
        .error (.typed (.gosubNoExist 999), exampleGosubState)) ∧
    (∀ r, Tbp.containsKey exampleGosubState.lines 999 = true →
      Tbp.getNextLineE exampleGosubState.lines 10 = .ok r → r ≠ 0 →
      Tbp.execStmt (fun _ => 0) exampleGosubState (.gosub 10 (.lit 999)) =
        .ok { exampleGosubState with
          callstack := exampleGosubState.callstack ++ [r], branchIp := 999 }) ∧
    (Tbp.containsKey exampleGosubState.lines 999 = true →
      Tbp.getNextLineE exampleGosubState.lines 10 = .ok 0 →
      Tbp.execStmt (fun _ => 0) exampleGosubState (.gosub 10 (.lit 999)) =
        .error (.typed .gosubRetInvalid, exampleGosubState))) ∧
    Tbp.containsKey exampleGosubState.lines 999 = false :=
  ⟨C5_gosub_eval (fun _ => 0) exampleGosubState 10 (.lit 999) 999 (by rfl),
    by rfl⟩

/-!  ## Claim C6  -/

/-- Claim C6 (confirmed).  When the `try` body of `interpret_line`
raises a typed error leaving the interpreter in state `sE` (mutations
made before the raise persist; `sE` is what the handler sees) and the
interpreter is not stopped at a breakpoint, `interpret_line` returns
`False`, the runtime state — instruction pointer, branch target, call
stack, RUN parameters, memory store, one-shot breakpoints, and the
processing state — is reset to its initial values, and the stored
program, the symbol table and the breakpoint set are exactly those of
`sE`: the error handling leaves them untouched (only the error report
is appended to the output). -/
theorem C6_interpret_line_error_reset (e : Tbp.RtErr) (sE : Tbp.InterpState)
    (h : sE.tstate ≠ .breakState) :
    (Tbp.interpret_line_outcome (.error (e, sE))).1 = false ∧
    (Tbp.interpret_line_outcome (.error (e, sE))).2.ip = 0 ∧
    (Tbp.interpret_line_outcome (.error (e, sE))).2.branchIp = 0 ∧
    (Tbp.interpret_line_outcome (.error (e, sE))).2.callstack = [] ∧
    (Tbp.interpret_line_outcome (.error (e, sE))).2.runParams = [] ∧
    (Tbp.interpret_line_outcome (.error (e, sE))).2.mem = Tbp.Memory.init ∧
    (Tbp.interpret_line_outcome (.error (e, sE))).2.oneShots = [] ∧
    (Tbp.interpret_line_outcome (.error (e, sE))).2.tstate = .lineState ∧
    (Tbp.interpret_line_outcome (.error (e, sE))).2.lines = sE.lines ∧
    (Tbp.interpret_line_outcome (.error (e, sE))).2.symbols = sE.symbols ∧
    (Tbp.interpret_line_outcome (.error (e, sE))).2.breakpoints =
      sE.breakpoints := by
  simp [Tbp.interpret_line_outcome, h, Tbp.initialize_runtime_state,
    Tbp.reportError, Tbp.printOut]

/-- Claim C6 witness: the spec's worked example `LET D=10/0` — the
division-by-zero typed error is raised with the state untouched, and
the handler then returns `False` with the runtime state reset and
program/symbols/breakpoints unchanged. -/
theorem C6_interpret_line_error_reset_witness :
    Tbp.execStmt (fun _ => 0) Tbp.initState
      (.letS 'D' (.binary .div (.lit 10) (.lit 0))) =
      .error (.typed .divByZero, Tbp.initState) ∧
    ((Tbp.interpret_line_outcome (.error (.divByZero, Tbp.initState))).1 = false ∧
    (Tbp.interpret_line_outcome (.error (.divByZero, Tbp.initState))).2.ip = 0 ∧
    (Tbp.interpret_line_outcome (.error (.divByZero, Tbp.initState))).2.branchIp = 0 ∧
    (Tbp.interpret_line_outcome (.error (.divByZero, Tbp.initState))).2.callstack = [] ∧
    (Tbp.interpret_line_outcome (.error (.divByZero, Tbp.initState))).2.runParams = [] ∧
    (Tbp.interpret_line_outcome (.error (.divByZero, Tbp.initState))).2.mem = Tbp.Memory.init ∧
    (Tbp.interpret_line_outcome (.error (.divByZero, Tbp.initState))).2.oneShots = [] ∧
    (Tbp.interpret_line_outcome (.error (.divByZero, Tbp.initState))).2.tstate = .lineState ∧
    (Tbp.interpret_line_outcome (.error (.divByZero, Tbp.initState))).2.lines = Tbp.initState.lines ∧
    (Tbp.interpret_line_outcome (.error (.divByZero, Tbp.initState))).2.symbols = Tbp.initState.symbols ∧
    (Tbp.interpret_line_outcome (.error (.divByZero, Tbp.initState))).2.breakpoints =
      Tbp.initState.breakpoints) :=
  ⟨rfl, C6_interpret_line_error_reset .divByZero Tbp.initState (by decide)⟩

namespace Tbp

/-! ## Helper lemmas for the linter (claim C9) -/

/-- Invariant: every recorded potential diagnostic under key `d` is an
uninitialized-variable diagnostic for `d` itself. -/
def PotentialWf (pot : List (Char × List LintErr)) : Prop :=
  ∀ q ∈ pot, ∀ it ∈ q.2, ∃ ln, it = LintErr.uninitVar q.1 ln

/-- Invariant: the hard-error list holds no uninitialized-variable
diagnostics (those live in the potential map until the end of
`lint_program`). -/
def NoUninitErrors (st : LintState) : Prop :=
  ∀ c ln, LintErr.uninitVar c ln ∉ st.errors

theorem addPotential_wf {pot : List (Char × List LintErr)} (h : PotentialWf pot)
    (name : Char) (ln : Int) :
    PotentialWf (addPotential pot name (.uninitVar name ln)) := by
  induction pot with
  | nil =>
      intro q hq it hit
      simp only [addPotential, List.mem_singleton] at hq
      subst hq
      simp only [List.mem_singleton] at hit
      exact ⟨ln, by simp [hit]⟩
  | cons p rest ih =>
      intro q hq it hit
      by_cases hn : p.1 = name
      · rw [show (p :: rest : List (Char × List LintErr)) = (p.1, p.2) :: rest
          from by simp, addPotential, if_pos hn] at hq
        simp only [List.mem_cons] at hq
        rcases hq with hq | hq
        · subst hq
          simp only [List.mem_append, List.mem_singleton] at hit
          rcases hit with hit | hit
          · exact h (p.1, p.2) (by simp) it hit
          · exact ⟨ln, by simp [hit, hn]⟩
        · exact h q (List.mem_cons_of_mem _ hq) it hit
      · rw [show (p :: rest : List (Char × List LintErr)) = (p.1, p.2) :: rest
          from by simp, addPotential, if_neg hn] at hq
        simp only [List.mem_cons] at hq
        rcases hq with hq | hq
        · subst hq
          exact h (p.1, p.2) (by simp) it hit
        · exact ih (fun r hr => h r (List.mem_cons_of_mem _ hr)) q hq it hit

/-- Unfolding of the linter's variable case. -/
theorem lintExpr_var (ln : Int) (st : LintState) (n : Char) :
    lintExpr ln st (.var n) =
      (if st.initialized.contains n.toUpper = true then st
       else { st with
              potential :=
                addPotential st.potential n.toUpper
                  (.uninitVar n.toUpper ln) }) := rfl

/-- The linter's expression walk leaves the error list and the
known-initialized set unchanged and preserves the potential-map
invariant. -/
theorem lintExpr_facts : ∀ (e : Expr) (ln : Int) (st : LintState),
    (lintExpr ln st e).errors = st.errors ∧
    (lintExpr ln st e).initialized = st.initialized ∧
    (PotentialWf st.potential → PotentialWf (lintExpr ln st e).potential)
  | .lit _, _, _ => ⟨rfl, rfl, fun h => h⟩
  | .var n, ln, st => by
      rw [lintExpr_var]
      by_cases hc : st.initialized.contains n.toUpper = true
      · rw [if_pos hc]
        exact ⟨rfl, rfl, fun h => h⟩
      · rw [if_neg hc]
        exact ⟨rfl, rfl, fun h => addPotential_wf h n.toUpper ln⟩
  | .unary _ e, ln, st => lintExpr_facts e ln st
  | .binary _ l r, ln, st => by
      obtain ⟨h1, h2, h3⟩ := lintExpr_facts l ln st
      obtain ⟨h4, h5, h6⟩ := lintExpr_facts r ln (lintExpr ln st l)
      exact ⟨h4.trans h1, h5.trans h2, fun h => h6 (h3 h)⟩
  | .group e, ln, st => lintExpr_facts e ln st
  | .rnd e, ln, st => lintExpr_facts e ln st
  | .usr _ none none, _, _ => ⟨rfl, rfl, fun h => h⟩
  | .usr _ none (some ea), ln, st => lintExpr_facts ea ln st
  | .usr _ (some ex) none, ln, st => lintExpr_facts ex ln st
  | .usr _ (some ex) (some ea), ln, st => by
      obtain ⟨h1, h2, h3⟩ := lintExpr_facts ea ln st
      obtain ⟨h4, h5, h6⟩ := lintExpr_facts ex ln (lintExpr ln st ea)
      exact ⟨h4.trans h1, h5.trans h2, fun h => h6 (h3 h)⟩

/-- The same facts for the PRINT-argument fold. -/
theorem lintPrintFold_facts : ∀ (items : List PrintItem) (ln : Int)
    (st : LintState),
    ((items.foldl
      (fun acc it =>
        match it with
        | .expr e => lintExpr ln acc e
        | _ => acc) st).errors = st.errors ∧
    (items.foldl
      (fun acc it =>
        match it with
        | .expr e => lintExpr ln acc e
        | _ => acc) st).initialized = st.initialized ∧
    (PotentialWf st.potential → PotentialWf (items.foldl
      (fun acc it =>
        match it with
        | .expr e => lintExpr ln acc e
        | _ => acc) st).potential))
  | [], _, _ => ⟨rfl, rfl, fun h => h⟩
  | .sep c :: rest, ln, st => lintPrintFold_facts rest ln st
  | .str t :: rest, ln, st => lintPrintFold_facts rest ln st
  | .expr e :: rest, ln, st => by
      obtain ⟨h1, h2, h3⟩ := lintExpr_facts e ln st
      obtain ⟨h4, h5, h6⟩ := lintPrintFold_facts rest ln (lintExpr ln st e)
      exact ⟨h4.trans h1, h5.trans h2, fun h => h6 (h3 h)⟩

/-- Unfolding of the GOTO/GOSUB target check when the accept-result is
no literal. -/
theorem checkGotoGosub_eq_none (lines : Lines) (ln : Int) (cmd : String)
    (st : LintState) (target : Expr)
    (hml : lintBranchLiteral target = none) :
    checkGotoGosub lines ln cmd st target = lintExpr ln st target := by
  unfold checkGotoGosub
  rw [hml]

/-- Unfolding of the GOTO/GOSUB target check on a literal target. -/
theorem checkGotoGosub_eq_some (lines : Lines) (ln : Int) (cmd : String)
    (st : LintState) (target : Expr) (v : Int)
    (hml : lintBranchLiteral target = some v) :
    checkGotoGosub lines ln cmd st target =
      (if ¬containsKey lines v = true then
        { lintExpr ln st target with
            errors := (lintExpr ln st target).errors ++ [.branchTarget cmd v ln] }
       else lintExpr ln st target) := by
  unfold checkGotoGosub
  rw [hml]

theorem checkGotoGosub_facts (lines : Lines) (ln : Int) (cmd : String)
    (st : LintState) (target : Expr) :
    (NoUninitErrors st → NoUninitErrors (checkGotoGosub lines ln cmd st target)) ∧
    (checkGotoGosub lines ln cmd st target).initialized = st.initialized ∧
    (PotentialWf st.potential →
      PotentialWf (checkGotoGosub lines ln cmd st target).potential) := by
  obtain ⟨h1, h2, h3⟩ := lintExpr_facts target ln st
  cases hml : lintBranchLiteral target with
  | none =>
      rw [checkGotoGosub_eq_none lines ln cmd st target hml]
      exact ⟨fun h c l hm => h c l (h1 ▸ hm), h2, h3⟩
  | some v =>
      rw [checkGotoGosub_eq_some lines ln cmd st target v hml]
      by_cases hck : ¬containsKey lines v = true
      · rw [if_pos hck]
        refine ⟨?_, h2, h3⟩
        intro h c l hm
        rcases List.mem_append.mp hm with hm | hm
        · exact h c l (h1 ▸ hm)
        · simp at hm
      · rw [if_neg hck]
        exact ⟨fun h c l hm => h c l (h1 ▸ hm), h2, h3⟩

/-- One linted statement: uninitialized-variable diagnostics are only
recorded in the potential map (never straight into the error list), the
known-initialized set grows by exactly `stmtInits`, and the
potential-map invariant is preserved. -/
theorem lintStmt_facts (stm : Stmt) (lines : Lines) (ln : Int)
    (st : LintState) :
    (NoUninitErrors st → NoUninitErrors (lintStmt lines ln st stm)) ∧
    (lintStmt lines ln st stm).initialized =
      st.initialized ++ stmtInits stm ∧
    (PotentialWf st.potential → PotentialWf (lintStmt lines ln st stm).potential) := by
  cases stm with
  | print items =>
      obtain ⟨h1, h2, h3⟩ := lintPrintFold_facts items ln st
      exact ⟨fun h c l hm => h c l (h1 ▸ hm),
        h2.trans (List.append_nil _).symm, h3⟩
  | rem => exact ⟨fun h => h, (List.append_nil _).symm, fun h => h⟩
  | letS v e =>
      obtain ⟨h1, h2, h3⟩ := lintExpr_facts e ln st
      refine ⟨fun h c l hm => h c l (h1 ▸ hm), ?_, h3⟩
      show (lintExpr ln st e).initialized ++ [v.toUpper] = _
      rw [h2]
      rfl
  | goto target =>
      obtain ⟨g1, g2, g3⟩ := checkGotoGosub_facts lines ln "GOTO" st target
      exact ⟨g1, g2.trans (List.append_nil _).symm, g3⟩
  | gosub selfLine target =>
      obtain ⟨g1, g2, g3⟩ := checkGotoGosub_facts lines ln "GOSUB" st target
      exact ⟨g1, g2.trans (List.append_nil _).symm, g3⟩
  | ret => exact ⟨fun h => h, (List.append_nil _).symm, fun h => h⟩
  | endS => exact ⟨fun h => h, (List.append_nil _).symm, fun h => h⟩
  | list a b => exact ⟨fun h => h, (List.append_nil _).symm, fun h => h⟩
  | ifS lhs op rhs branch =>
      obtain ⟨h1, h2, h3⟩ := lintExpr_facts lhs ln st
      obtain ⟨h4, h5, h6⟩ := lintExpr_facts rhs ln (lintExpr ln st lhs)
      exact ⟨fun h c l hm => h c l ((h4.trans h1) ▸ hm),
        (h5.trans h2).trans (List.append_nil _).symm, fun h => h6 (h3 h)⟩
  | clear =>
      refine ⟨?_, (List.append_nil _).symm, fun h => h⟩
      intro h c l hm
      rcases List.mem_append.mp hm with hm | hm
      · exact h c l hm
      · simp at hm
  | inputS vars => exact ⟨fun h => h, rfl, fun h => h⟩

/-- The list of variables a program's top-level statements initialize,
in pass order. -/
def allInits (ls : Lines) : List Char :=
  (ls.map (fun p => stmtInits p.2.stmt)).flatten

theorem lintPass_facts : ∀ (ls : Lines) (lines : Lines) (st : LintState),
    (NoUninitErrors st → NoUninitErrors
      (ls.foldl (fun acc p => lintStmt lines p.1 acc p.2.stmt) st)) ∧
    (ls.foldl (fun acc p => lintStmt lines p.1 acc p.2.stmt) st).initialized =
      st.initialized ++ allInits ls ∧
    (PotentialWf st.potential → PotentialWf
      (ls.foldl (fun acc p => lintStmt lines p.1 acc p.2.stmt) st).potential)
  | [], _, st => ⟨fun h => h, by simp [allInits], fun h => h⟩
  | p :: rest, lines, st => by
      obtain ⟨h1, h2, h3⟩ := lintStmt_facts p.2.stmt lines p.1 st
      obtain ⟨h4, h5, h6⟩ := lintPass_facts rest lines (lintStmt lines p.1 st p.2.stmt)
      refine ⟨fun h => h4 (h1 h), ?_, fun h => h6 (h3 h)⟩
      rw [List.foldl_cons, h5, h2, allInits]
      simp [allInits]

/-- Membership in the flattening fold that moves the surviving
potential diagnostics into the report. -/
theorem mem_potential_fold : ∀ (pot : List (Char × List LintErr))
    (init : List LintErr) (x : LintErr),
    (x ∈ pot.foldl (fun acc q => acc ++ q.2) init ↔
      x ∈ init ∨ ∃ q ∈ pot, x ∈ q.2)
  | [], init, x => by simp
  | q :: rest, init, x => by
      rw [List.foldl_cons, mem_potential_fold rest (init ++ q.2) x]
      simp only [List.mem_append, List.mem_cons]
      constructor
      · rintro ((h | h) | ⟨r, hr, hx⟩)
        · exact Or.inl h
        · exact Or.inr ⟨q, Or.inl rfl, h⟩
        · exact Or.inr ⟨r, Or.inr hr, hx⟩
      · rintro (h | ⟨r, hr | hr, hx⟩)
        · exact Or.inl (Or.inl h)
        · subst hr
          exact Or.inl (Or.inr hx)
        · exact Or.inr ⟨r, hr, hx⟩


/-- Where an uninitialized-variable diagnostic in the final report can
come from: the hard-error list of the pass (never, by
`lintStmt_facts`), or the potential map — filtered by the
known-initialized set exactly when `strict` is false. -/
theorem uninitVar_mem_lint_program (lines : Lines) (strict : Bool)
    (c : Char) (ln : Int) :
    (LintErr.uninitVar c ln ∈ lint_program lines strict ↔
      LintErr.uninitVar c ln ∈ (lintPass lines).errors ∨
      ∃ q ∈ (if strict = false then
               (lintPass lines).potential.filter
                 (fun q => ¬(lintPass lines).initialized.contains q.1)
             else (lintPass lines).potential),
        LintErr.uninitVar c ln ∈ q.2) := by
  cases strict with
  | false =>
      by_cases hEnd : (lintPass lines).hadEnd = false
      · simp [lint_program, hEnd, List.mem_append, mem_potential_fold]
      · simp [lint_program, hEnd, List.mem_append, mem_potential_fold]
  | true =>
      by_cases hEnd : (lintPass lines).hadEnd = false
      · simp [lint_program, hEnd, List.mem_append, mem_potential_fold]
      · simp [lint_program, hEnd, List.mem_append, mem_potential_fold]

end Tbp

/-!  ## Claim C9  -/

/-- A program whose only initialization of A sits inside an IF branch:
`10 PRINT A` / `20 IF 1=1 THEN LET A=5` / `30 END`. -/
def exampleLintProgram : Tbp.Lines :=
  [(10, ⟨"10 PRINT A", .print [.expr (.var 'A')]⟩),
   (20, ⟨"20 IF 1=1 THEN LET A=5", .ifS (.lit 1) .eq (.lit 1) (.letS 'A' (.lit 5))⟩),
   (30, ⟨"30 END", .endS⟩)]

/-- Claim C9 counterexample.  The claim says non-strict mode emits no
potentially-uninitialized diagnostic for a variable initialized by
assignment anywhere in the program.  The linter's `visit_if_statement`
(linter.py 313-317) walks only the two relation operands and never the
branch statement, so the `LET A=5` inside line 20 is not seen: linting
`10 PRINT A / 20 IF 1=1 THEN LET A=5 / 30 END` in non-strict mode still
reports A at line 10. -/
theorem C9_if_branch_init_not_suppressed :
    Tbp.lint_program exampleLintProgram false = [.uninitVar 'A' 10] ∧
    Tbp.LintErr.uninitVar 'A' 10 ∈ Tbp.lint_program exampleLintProgram false := by
  have h : Tbp.lint_program exampleLintProgram false =
      [Tbp.LintErr.uninitVar 'A' 10] := rfl
  rw [h]
  simp

/-- Claim C9 amended.  The linter's known-initialized set is exactly
the (upper-cased) targets of *top-level* LET/assignment and INPUT
statements, in pass order — an initialization nested inside an IF
branch is not collected, because `visit_if_statement` does not descend
into the branch.  In non-strict mode no potentially-uninitialized
diagnostic is emitted for any variable in that set, even when its
initialization comes after the flagged use; in strict mode this
suppression is skipped: every recorded potentially-uninitialized use
diagnostic is reported. -/
theorem C9_linter_suppression (lines : Tbp.Lines) :
    (Tbp.lintPass lines).initialized = Tbp.allInits lines ∧
    (∀ c, c ∈ (Tbp.lintPass lines).initialized →
      ∀ ln, Tbp.LintErr.uninitVar c ln ∉ Tbp.lint_program lines false) ∧
    (∀ c ln,
      (∃ q ∈ (Tbp.lintPass lines).potential, Tbp.LintErr.uninitVar c ln ∈ q.2) →
      Tbp.LintErr.uninitVar c ln ∈ Tbp.lint_program lines true) := by
  obtain ⟨hNo, hInit, hWf⟩ := Tbp.lintPass_facts lines lines ⟨[], false, [], []⟩
  have hNo2 : Tbp.NoUninitErrors
      (Tbp.lintPass lines) :=
    hNo (fun c ln h => absurd h (List.not_mem_nil _))
  have hWf2 : Tbp.PotentialWf (Tbp.lintPass lines).potential :=
    hWf (fun q hq => absurd hq (List.not_mem_nil _))
  refine ⟨by simpa using hInit, ?_, ?_⟩
  · intro c hc ln hmem
    rw [Tbp.uninitVar_mem_lint_program] at hmem
    rcases hmem with hmem | ⟨q, hq, hx⟩
    · exact hNo2 c ln hmem
    · rw [if_pos rfl] at hq
      rw [List.mem_filter] at hq
      obtain ⟨hq1, hq2⟩ := hq
      obtain ⟨l2, hl2⟩ := hWf2 q hq1 _ hx
      injection hl2 with hcq hln
      rw [hcq] at hc
      simp at hq2
      exact hq2 hc
  · intro c ln hex
    rw [Tbp.uninitVar_mem_lint_program]
    right
    rw [if_neg (by simp)]
    exact hex

/-!  ## Claim C7  -/

namespace Tbp

/-- The run loop is inert once the interpreter has left the RUNNING
state (the `while` guard of interpreter.py 485). -/
theorem runLoop_not_running (rf : Int → Int) (f : Nat) (u : InterpState)
    (h : u.tstate ≠ .runningState) : runLoop rf f u = .ok u := by
  cases f with
  | zero => rfl
  | succ n => simp [runLoop, h]

/-- One unfolding of the fuel-indexed run loop. -/
theorem runLoop_succ (rf : Int → Int) (f : Nat) (u : InterpState) :
    runLoop rf (f + 1) u =
      (if u.tstate ≠ .runningState then .ok u
       else do
         let (hit, s1) ← hitBreakpoint u
         if hit then runLoop rf f s1
         else do
           let s2 := { s1 with bpEnabled := true }
           let s3 ← runLine rf s2
           let s4 ←
             if s3.tstate = .runningState then
               if s3.branchIp ≠ 0 then
                 pure { s3 with ip := s3.branchIp, branchIp := 0 }
               else
                 match getNextLineE s3.lines s3.ip with
                 | .error p => throw (.untyped p, s3)
                 | .ok nl => pure { s3 with ip := nl }
             else pure s3
           if s4.ip = 0 then pure s4
           else runLoop rf f s4) := by
  rfl

/-- One running iteration taken with breakpoints suppressed (the resumed
line of `_run_program`): the breakpoint check passes through and the
current line's statement is executed with breakpoints re-enabled. -/
theorem runLoop_exec_line (rf : Int → Int) (f : Nat) (u : InterpState)
    (pl : ProgLine)
    (h1 : u.tstate = .runningState) (h2 : u.bpEnabled = false)
    (h3 : lookupLine u.lines u.ip = some pl) :
    runLoop rf (f + 1) u =
      (do
        let s3 ← execStmt rf { u with bpEnabled := true } pl.stmt
        let s4 ←
          if s3.tstate = .runningState then
            if s3.branchIp ≠ 0 then
              pure { s3 with ip := s3.branchIp, branchIp := 0 }
            else
              match getNextLineE s3.lines s3.ip with
              | .error p => throw (.untyped p, s3)
              | .ok nl => pure { s3 with ip := nl }
          else pure s3
        if s4.ip = 0 then pure s4
        else runLoop rf f s4) := by
  rw [runLoop_succ, if_neg (by simp [h1])]
  have hb : hitBreakpoint u = .ok (false, u) := by
    unfold hitBreakpoint
    rw [if_pos h2]
  rw [hb]
  simp only [except_bind_ok]
  rw [if_neg (by simp)]
  have hr : runLine rf { u with bpEnabled := true } =
      execStmt rf { u with bpEnabled := true } pl.stmt := by
    unfold runLine
    rw [show ({ u with bpEnabled := true } : InterpState).lines = u.lines from
          rfl,
        show ({ u with bpEnabled := true } : InterpState).ip = u.ip from rfl,
        h3]
  rw [hr]

/-- A running iteration that arrives at a one-shot breakpoint line (and
not a regular breakpoint): the whole one-shot list is cleared, the
interpreter drops into break state, the stopped-at line's source is
displayed, and the loop exits. -/
theorem runLoop_oneshot_stop (rf : Int → Int) (f : Nat) (u : InterpState)
    (pl : ProgLine)
    (h1 : u.tstate = .runningState) (h2 : u.bpEnabled = true)
    (h3 : u.breakpoints.contains u.ip = false)
    (h4 : u.oneShots.contains u.ip = true)
    (h5 : lookupLine u.lines u.ip = some pl) :
    runLoop rf (f + 1) u =
      .ok { u with oneShots := [], tstate := .breakState,
                   output := u.output ++ ["[" ++ pl.source ++ "]\n"] } := by
  rw [runLoop_succ, if_neg (by simp [h1])]
  have hb : hitBreakpoint u = .ok (true,
      { u with oneShots := [], tstate := .breakState,
               output := u.output ++ ["[" ++ pl.source ++ "]\n"] }) := by
    unfold hitBreakpoint
    rw [if_neg (by simp [h2])]
    simp only [h3, h4, Bool.false_eq_true, if_false, if_true, printOut]
    rw [h5]
  rw [hb]
  simp only [except_bind_ok, if_true, reduceIte]
  exact runLoop_not_running rf f _ (by simp)

end Tbp

/-- Claim C7 (confirmed for the formalised shape).  Stepping with
break_continue while stopped at a stored line `IF lv op rv THEN GOSUB
tv` (literal operands and target, so re-evaluation is side-effect
free): the one-shot pass appends exactly the resolved branch target
`short_int tv` and the line's normal successor `next` to the one-shot
list — and for a nested IF the one-shot walk recurses to the inner IF's
branch clause — and the resumed run stops, back in break state with the
one-shots consumed, at the branch target when the condition holds (the
GOSUB having pushed its return address) and at the normal successor
when it does not: whichever of the two lines execution reaches first. -/
theorem C7_step_over_if_gosub (rf : Int → Int) (fuel : Nat)
    (s : Tbp.InterpState) (lv rv tv gline next ipRet : Int)
    (op : Tbp.RelOp) (src : String) (plT plN : Tbp.ProgLine)
    (hs_ip : Tbp.lookupLine s.lines s.ip =
      some ⟨src, .ifS (.lit lv) op (.lit rv) (.gosub gline (.lit tv))⟩)
    (hip : s.ip ≠ 0)
    (ht : Tbp.containsKey s.lines (Tbp.short_int tv) = true)
    (ht0 : Tbp.short_int tv ≠ 0)
    (hnext : Tbp.getNextLineE s.lines s.ip = .ok next)
    (hnext0 : next ≠ 0)
    (hret : Tbp.getNextLineE s.lines gline = .ok ipRet)
    (hret0 : ipRet ≠ 0)
    (hbp_t : s.breakpoints.contains (Tbp.short_int tv) = false)
    (hbp_n : s.breakpoints.contains next = false)
    (hlookT : Tbp.lookupLine s.lines (Tbp.short_int tv) = some plT)
    (hlookN : Tbp.lookupLine s.lines next = some plN) :
    Tbp.set_one_shots rf s =
      .ok { s with oneShots := s.oneShots ++ [Tbp.short_int tv, next] } ∧
    (∀ (a c a2 c2 : Tbp.Expr) (b b2 : Tbp.RelOp) (br : Tbp.Stmt),
      Tbp.doIfOneShot rf s (.ifS a b c (.ifS a2 b2 c2 br)) =
        Tbp.doIfOneShot rf s (.ifS a2 b2 c2 br)) ∧
    (Tbp.relEval op (Tbp.short_int lv) (Tbp.short_int rv) = true →
      Tbp.break_continue rf (fuel + 2) .step s = .ok
        { s with bpEnabled := true, tstate := .breakState,
                 ip := Tbp.short_int tv, branchIp := 0,
                 callstack := s.callstack ++ [ipRet], oneShots := [],
                 output := s.output ++ ["[" ++ plT.source ++ "]\n"] }) ∧
    (Tbp.relEval op (Tbp.short_int lv) (Tbp.short_int rv) = false →
      Tbp.break_continue rf (fuel + 2) .step s = .ok
        { s with bpEnabled := true, tstate := .breakState, ip := next,
                 branchIp := 0, oneShots := [],
                 output := s.output ++ ["[" ++ plN.source ++ "]\n"] }) := by
  have hOS : Tbp.set_one_shots rf s =
      .ok { s with oneShots := s.oneShots ++ [Tbp.short_int tv, next] } := by
    unfold Tbp.set_one_shots
    rw [hs_ip]
    simp only [Tbp.doIfOneShot, Tbp.doBranchOneShot, Tbp.evalExpr,
      Tbp.except_bind_ok, ht]
    simp [hnext, hnext0]
  refine ⟨hOS, fun a c a2 c2 b b2 br => rfl, ?_, ?_⟩
  · intro hcond
    simp only [Tbp.break_continue, Tbp.runProgram, hOS, Tbp.except_bind_ok]
    simp only [hip, if_neg, reduceIte, Tbp.except_pure, Tbp.except_bind_ok]
    rw [show fuel + 2 = (fuel + 1) + 1 from rfl]
    rw [Tbp.runLoop_exec_line rf (fuel + 1)
      { s with bpEnabled := false, tstate := .runningState, branchIp := 0,
               oneShots := s.oneShots ++ [Tbp.short_int tv, next] }
      ⟨src, .ifS (.lit lv) op (.lit rv) (.gosub gline (.lit tv))⟩
      rfl rfl hs_ip]
    have hEx : Tbp.execStmt rf
        { s with bpEnabled := true, tstate := .runningState, branchIp := 0,
                 oneShots := s.oneShots ++ [Tbp.short_int tv, next] }
        (.ifS (.lit lv) op (.lit rv) (.gosub gline (.lit tv))) =
      .ok { s with bpEnabled := true, tstate := .runningState,
                   branchIp := Tbp.short_int tv,
                   callstack := s.callstack ++ [ipRet],
                   oneShots := s.oneShots ++ [Tbp.short_int tv, next] } := by
      simp [Tbp.execStmt, Tbp.evalExpr, hcond, ht, hret, hret0]
    simp only [hEx, Tbp.except_bind_ok, Tbp.except_pure, ht0, ne_eq,
      not_false_eq_true, if_true, reduceIte]
    rw [Tbp.runLoop_oneshot_stop rf fuel
      { s with bpEnabled := true, tstate := .runningState,
               ip := Tbp.short_int tv, branchIp := 0,
               callstack := s.callstack ++ [ipRet],
               oneShots := s.oneShots ++ [Tbp.short_int tv, next] }
      plT rfl rfl hbp_t (by simp) hlookT]
    simp
  · intro hcond
    simp only [Tbp.break_continue, Tbp.runProgram, hOS, Tbp.except_bind_ok]
    simp only [hip, if_neg, reduceIte, Tbp.except_pure, Tbp.except_bind_ok]
    rw [show fuel + 2 = (fuel + 1) + 1 from rfl]
    rw [Tbp.runLoop_exec_line rf (fuel + 1)
      { s with bpEnabled := false, tstate := .runningState, branchIp := 0,
               oneShots := s.oneShots ++ [Tbp.short_int tv, next] }
      ⟨src, .ifS (.lit lv) op (.lit rv) (.gosub gline (.lit tv))⟩
      rfl rfl hs_ip]
    have hEx : Tbp.execStmt rf
        { s with bpEnabled := true, tstate := .runningState, branchIp := 0,
                 oneShots := s.oneShots ++ [Tbp.short_int tv, next] }
        (.ifS (.lit lv) op (.lit rv) (.gosub gline (.lit tv))) =
      .ok { s with bpEnabled := true, tstate := .runningState, branchIp := 0,
                   oneShots := s.oneShots ++ [Tbp.short_int tv, next] } := by
      simp [Tbp.execStmt, Tbp.evalExpr, hcond]
    simp only [hEx, Tbp.except_bind_ok, Tbp.except_pure, ne_eq,
      not_true_eq_false, if_false, reduceIte]
    rw [show Tbp.getNextLineE s.lines s.ip = .ok next from hnext]
    simp only [hnext0, ne_eq, not_false_eq_true, if_true, reduceIte,
      Tbp.except_bind_ok, Tbp.except_pure]
    rw [Tbp.runLoop_oneshot_stop rf fuel
      { s with bpEnabled := true, tstate := .runningState, ip := next,
               branchIp := 0,
               oneShots := s.oneShots ++ [Tbp.short_int tv, next] }
      plN rfl rfl hbp_n (by simp) hlookN]
    simp

/-- A debugging session stopped at `10 IF 1=1 THEN GOSUB 30` with
`20 END` as the next line and `30 REM` as the subroutine. -/
def exampleStepState : Tbp.InterpState :=
  { Tbp.initState with
    lines := [(10, ⟨"10 IF 1=1 THEN GOSUB 30",
                    .ifS (.lit 1) .eq (.lit 1) (.gosub 10 (.lit 30))⟩),
              (20, ⟨"20 END", .endS⟩),
              (30, ⟨"30 REM", .rem⟩)],
    ip := 10, tstate := .breakState }

/-- Claim C7 witness: stepping over `10 IF 1=1 THEN GOSUB 30` of the
example session sets one-shots on the branch target 30 and the normal
successor 20, and — the condition being true — the resumed run stops at
line 30 with the GOSUB's return address 20 pushed. -/
theorem C7_step_over_if_gosub_witness :
    Tbp.set_one_shots (fun _ => 0) exampleStepState =
      .ok { exampleStepState with oneShots := [30, 20] } ∧
    Tbp.break_continue (fun _ => 0) 2 .step exampleStepState =
      .ok { exampleStepState with
            bpEnabled := true, tstate := .breakState, ip := 30,
            branchIp := 0, callstack := [20], oneShots := [],
            output := ["[30 REM]\n"] } := by
  obtain ⟨h1, h2, h3, h4⟩ :=
    C7_step_over_if_gosub (fun _ => 0) 0 exampleStepState 1 1 30 10 20 20
      .eq "10 IF 1=1 THEN GOSUB 30" ⟨"30 REM", .rem⟩ ⟨"20 END", .endS⟩
      rfl (by decide) (by decide) (by decide) rfl (by decide) rfl (by decide)
      rfl rfl rfl rfl
  exact ⟨h1, h3 (by decide)⟩
